import Mathlib

/-!
Verification of the PiggyPLAN client-side game-state store
(`src/components/store/gameStore.ts`).

The store is a synchronous, single-threaded state container: every mutator
builds a candidate state, funnels it through `persist` (normalize, recompute
badges, assign, best-effort storage write, listener fan-out) and returns.
We embed the store shallowly:

* JavaScript numbers are modelled by `JSNum`: an exact rational for every
  finite value, plus `nan`, `inf` (+Infinity) and `negInf` (-Infinity).
  The arithmetic, comparison, `Math.round`/`floor`/`abs`/`max`/`min`,
  truthiness (`x || 0`) and `Number.isFinite` used by the store are defined
  case by case following ECMAScript semantics (double rounding error is not
  modelled; the store only ever manipulates small integers).
* The state object as it can come out of `JSON.parse` (or be built by a
  mutator) is `RawState`: every field is optional, numeric fields are
  `JSNum`, and the nested records have optional fields.  A missing field
  models both an absent key and a nullish value.  `transactions = none`
  models a missing or non-array value (the only test the source performs
  on it is `Array.isArray`).
* Side effects that do not touch the game state (the `localStorage` write,
  the listener fan-out, the per-pet age map, `uid()` and `Date.now()`) are
  dropped or passed in as explicit arguments (`newId`, `now`): mutators
  become pure functions `RawState → RawState`.

Definitions keep the names of the source functions.  `Step`/`Reachable`
describe the states the store can hold when booted from the default state
and driven through the public mutator API.
-/

/-! ## JavaScript number model -/

inductive JSNum where
  | num : ℚ → JSNum
  | nan : JSNum
  | inf : JSNum
  | negInf : JSNum
deriving DecidableEq

namespace JSNum

/-- `Number.isFinite`. -/
def isFinite : JSNum → Bool
  | num _ => true
  | _ => false

/-- JavaScript truthiness of a number (`0`, `-0` and `NaN` are falsy). -/
def truthy : JSNum → Bool
  | num q => decide (q ≠ 0)
  | nan => false
  | inf => true
  | negInf => true

end JSNum

/-- `ToNumber` of a possibly missing value: an absent/undefined field coerces
to `NaN` (a present number coerces to itself). -/
def jsToNumber (x : Option JSNum) : JSNum := x.getD .nan

/-- `x || 0`: replaces a falsy number (`0` or `NaN`) by `0`. -/
def jsOrZero (x : JSNum) : JSNum := if x.truthy then x else .num 0

/-- JavaScript `<` on numbers (`false` whenever an operand is `NaN`). -/
def jsLt : JSNum → JSNum → Bool
  | .nan, _ => false
  | _, .nan => false
  | .num a, .num b => decide (a < b)
  | .num _, .inf => true
  | .num _, .negInf => false
  | .inf, _ => false
  | .negInf, .negInf => false
  | .negInf, _ => true

/-- JavaScript `<=` on numbers (`false` whenever an operand is `NaN`). -/
def jsLe : JSNum → JSNum → Bool
  | .nan, _ => false
  | _, .nan => false
  | .num a, .num b => decide (a ≤ b)
  | .num _, .inf => true
  | .num _, .negInf => false
  | .inf, .inf => true
  | .inf, _ => false
  | .negInf, _ => true

/-- JavaScript `>=`. -/
def jsGe (a b : JSNum) : Bool := jsLe b a

/-- JavaScript `+` on numbers. -/
def jsAdd : JSNum → JSNum → JSNum
  | .nan, _ => .nan
  | _, .nan => .nan
  | .num a, .num b => .num (a + b)
  | .num _, .inf => .inf
  | .inf, .num _ => .inf
  | .inf, .inf => .inf
  | .inf, .negInf => .nan
  | .negInf, .inf => .nan
  | .negInf, .negInf => .negInf
  | .negInf, .num _ => .negInf
  | .num _, .negInf => .negInf

/-- JavaScript unary minus on numbers. -/
def jsNeg : JSNum → JSNum
  | .num a => .num (-a)
  | .nan => .nan
  | .inf => .negInf
  | .negInf => .inf

/-- JavaScript `-` on numbers. -/
def jsSub (a b : JSNum) : JSNum := jsAdd a (jsNeg b)

/-- `Math.round`: round half toward +Infinity; fixes `NaN` and infinities.
(`Rat.floor` is used rather than `⌊·⌋` to keep the definition
kernel-computable; they agree, see `jsRound_num`.) -/
def jsRound : JSNum → JSNum
  | .num q => .num (((q + 1/2).floor : ℤ) : ℚ)
  | x => x

/-- `Math.floor`. -/
def jsFloor : JSNum → JSNum
  | .num q => .num ((q.floor : ℤ) : ℚ)
  | x => x

/-- `Math.abs`. -/
def jsAbs : JSNum → JSNum
  | .num q => .num |q|
  | .nan => .nan
  | .inf => .inf
  | .negInf => .inf

/-- `Math.max` of two numbers (`NaN` if either operand is `NaN`). -/
def jsMax (a b : JSNum) : JSNum :=
  match a, b with
  | .nan, _ => .nan
  | _, .nan => .nan
  | _, _ => if jsLt a b then b else a

/-- `Math.min` of two numbers (`NaN` if either operand is `NaN`). -/
def jsMin (a b : JSNum) : JSNum :=
  match a, b with
  | .nan, _ => .nan
  | _, .nan => .nan
  | _, _ => if jsLt b a then b else a

@[simp] theorem jsAdd_num (a b : ℚ) : jsAdd (.num a) (.num b) = .num (a + b) := rfl

@[simp] theorem jsLt_num (a b : ℚ) : jsLt (.num a) (.num b) = decide (a < b) := rfl

@[simp] theorem jsLe_num (a b : ℚ) : jsLe (.num a) (.num b) = decide (a ≤ b) := rfl

@[simp] theorem jsGe_num (a b : ℚ) : jsGe (.num a) (.num b) = decide (b ≤ a) := rfl

theorem ratFloor_eq_floor (q : ℚ) : q.floor = ⌊q⌋ :=
  (Rat.floor_def' q).trans Rat.floor_def.symm

@[simp] theorem jsRound_num (q : ℚ) : jsRound (.num q) = .num ((⌊q + 1/2⌋ : ℤ) : ℚ) := by
  rw [jsRound, ratFloor_eq_floor]

@[simp] theorem jsFloor_num (q : ℚ) : jsFloor (.num q) = .num ((⌊q⌋ : ℤ) : ℚ) := by
  rw [jsFloor, ratFloor_eq_floor]

@[simp] theorem jsToNumber_some (x : JSNum) : jsToNumber (some x) = x := rfl

@[simp] theorem jsToNumber_none : jsToNumber none = .nan := rfl

theorem jsMax_num (a b : ℚ) : jsMax (.num a) (.num b) = .num (max a b) := by
  simp only [jsMax, jsLt_num]
  split_ifs with h
  · simp at h
    rw [max_eq_right h.le]
  · simp at h
    rw [max_eq_left h]

theorem jsMin_num (a b : ℚ) : jsMin (.num a) (.num b) = .num (min a b) := by
  simp only [jsMin, jsLt_num]
  split_ifs with h
  · simp at h
    rw [min_eq_right h.le]
  · simp at h
    rw [min_eq_left h]

/-- `Math.max(0, (q || 0))` is the identity on non-negative rationals:
this is how `normalize` leaves an already-normalized `money`/`daysPlayed`
value unchanged. -/
theorem jsMax_zero_orZero_num {q : ℚ} (hq : 0 ≤ q) :
    jsMax (.num 0) (jsOrZero (.num q)) = .num q := by
  by_cases h : q = 0
  · subst h
    simp [jsOrZero, JSNum.truthy, jsMax]
  · have : (JSNum.num q).truthy = true := by simp [JSNum.truthy, h]
    rw [jsOrZero, this, if_pos rfl, jsMax_num, max_eq_right hq]

namespace GameStore

/-! ## Data model (`gameStore.ts` types, raw/JSON shape) -/

inductive AnimalId where
  | pig | dog | cat | fox | bunny | unicorn | snake | panda | dragon
deriving DecidableEq

/-- The string the template literal `` `Purchased ${petId}` `` interpolates. -/
def AnimalId.str : AnimalId → String
  | .pig => "pig"
  | .dog => "dog"
  | .cat => "cat"
  | .fox => "fox"
  | .bunny => "bunny"
  | .unicorn => "unicorn"
  | .snake => "snake"
  | .panda => "panda"
  | .dragon => "dragon"

inductive AccessoryId where
  | collar | leash | headband
deriving DecidableEq

inductive TxType where
  | income | expense
deriving DecidableEq

/-- The five need identifiers.  `fn` models the need named `fun` in the
source (`fun` is a Lean keyword). -/
inductive NeedId where
  | hunger | thirst | health | fn | sleep
deriving DecidableEq

structure Transaction where
  id : String
  createdAt : JSNum
  type : TxType
  amount : JSNum
  category : String
  note : String
deriving DecidableEq

/-- A possibly partial `needs` record as found in a raw state. -/
structure RawNeeds where
  hunger : Option JSNum
  thirst : Option JSNum
  health : Option JSNum
  fn : Option JSNum
  sleep : Option JSNum
deriving DecidableEq

def RawNeeds.empty : RawNeeds := ⟨none, none, none, none, none⟩

def RawNeeds.get (n : RawNeeds) : NeedId → Option JSNum
  | .hunger => n.hunger
  | .thirst => n.thirst
  | .health => n.health
  | .fn => n.fn
  | .sleep => n.sleep

/-- `{ ...n, [i]: v }` restricted to the five known keys. -/
def RawNeeds.set (n : RawNeeds) : NeedId → Option JSNum → RawNeeds
  | .hunger, v => { n with hunger := v }
  | .thirst, v => { n with thirst := v }
  | .health, v => { n with health := v }
  | .fn, v => { n with fn := v }
  | .sleep, v => { n with sleep := v }

structure RawPets where
  pig : Option Bool
  dog : Option Bool
  cat : Option Bool
  fox : Option Bool
  bunny : Option Bool
  unicorn : Option Bool
  snake : Option Bool
  panda : Option Bool
  dragon : Option Bool
deriving DecidableEq

def RawPets.empty : RawPets := ⟨none, none, none, none, none, none, none, none, none⟩

def RawPets.get (p : RawPets) : AnimalId → Option Bool
  | .pig => p.pig
  | .dog => p.dog
  | .cat => p.cat
  | .fox => p.fox
  | .bunny => p.bunny
  | .unicorn => p.unicorn
  | .snake => p.snake
  | .panda => p.panda
  | .dragon => p.dragon

def RawPets.set (p : RawPets) : AnimalId → Option Bool → RawPets
  | .pig, v => { p with pig := v }
  | .dog, v => { p with dog := v }
  | .cat, v => { p with cat := v }
  | .fox, v => { p with fox := v }
  | .bunny, v => { p with bunny := v }
  | .unicorn, v => { p with unicorn := v }
  | .snake, v => { p with snake := v }
  | .panda, v => { p with panda := v }
  | .dragon, v => { p with dragon := v }

structure RawOwnedAcc where
  collar : Option JSNum
  leash : Option JSNum
  headband : Option JSNum
deriving DecidableEq

def RawOwnedAcc.empty : RawOwnedAcc := ⟨none, none, none⟩

def RawOwnedAcc.get (o : RawOwnedAcc) : AccessoryId → Option JSNum
  | .collar => o.collar
  | .leash => o.leash
  | .headband => o.headband

def RawOwnedAcc.set (o : RawOwnedAcc) : AccessoryId → Option JSNum → RawOwnedAcc
  | .collar, v => { o with collar := v }
  | .leash, v => { o with leash := v }
  | .headband, v => { o with headband := v }

structure RawEquip where
  collar : Option Bool
  leash : Option Bool
  headband : Option Bool
deriving DecidableEq

def RawEquip.empty : RawEquip := ⟨none, none, none⟩

def RawEquip.get (e : RawEquip) : AccessoryId → Option Bool
  | .collar => e.collar
  | .leash => e.leash
  | .headband => e.headband

def RawEquip.set (e : RawEquip) : AccessoryId → Option Bool → RawEquip
  | .collar, v => { e with collar := v }
  | .leash, v => { e with leash := v }
  | .headband, v => { e with headband := v }

structure RawBadges where
  accessory_1 : Option Bool
  accessory_2 : Option Bool
  accessory_4 : Option Bool
  days_5 : Option Bool
  days_10 : Option Bool
  days_15 : Option Bool
  days_25 : Option Bool
  days_50 : Option Bool
  days_100 : Option Bool
deriving DecidableEq

def RawBadges.empty : RawBadges := ⟨none, none, none, none, none, none, none, none, none⟩

/-- A game state as it may come out of `JSON.parse` or be assembled by a
mutator: every field may be missing or partial. -/
structure RawState where
  needs : Option RawNeeds
  money : Option JSNum
  animalId : Option AnimalId
  ownedPets : Option RawPets
  ownedAccessories : Option RawOwnedAcc
  equippedAccessories : Option RawEquip
  badges : Option RawBadges
  daysPlayed : Option JSNum
  transactions : Option (List Transaction)
deriving DecidableEq

/-! ## Default state -/

def defaultNeeds : RawNeeds :=
  ⟨some (.num 0), some (.num 0), some (.num 0), some (.num 0), some (.num 0)⟩

def defaultPets : RawPets :=
  ⟨some true, some true, some true, some true, some true,
   some false, some false, some false, some false⟩

def defaultOwnedAcc : RawOwnedAcc := ⟨some (.num 0), some (.num 0), some (.num 0)⟩

def defaultEquip : RawEquip := ⟨some false, some false, some false⟩

def defaultBadges : RawBadges :=
  ⟨some false, some false, some false, some false, some false,
   some false, some false, some false, some false⟩

def defaultState : RawState :=
  { needs := some defaultNeeds
    money := some (.num 0)
    animalId := some .dog
    ownedPets := some defaultPets
    ownedAccessories := some defaultOwnedAcc
    equippedAccessories := some defaultEquip
    badges := some defaultBadges
    daysPlayed := some (.num 0)
    transactions := some [] }

/-! ## Helpers (`clampNeed`, `clampNeeds`, `normalize`, badges) -/

/-- `clampNeed(v)`: non-finite becomes `0`, otherwise
`Math.max(0, Math.min(100, Math.round(n)))`. -/
def clampNeed (v : JSNum) : JSNum :=
  if v.isFinite then jsMax (.num 0) (jsMin (.num 100) (jsRound v)) else .num 0

/-- `clampNeeds(needs)`: merge the candidate over the default needs
(`{ ...defaultState.needs, ...(needs ?? {}) }`), then clamp each field. -/
def clampNeeds (needs : Option RawNeeds) : RawNeeds :=
  let base := needs.getD RawNeeds.empty
  { hunger := some (clampNeed (base.hunger.getD (.num 0)))
    thirst := some (clampNeed (base.thirst.getD (.num 0)))
    health := some (clampNeed (base.health.getD (.num 0)))
    fn := some (clampNeed (base.fn.getD (.num 0)))
    sleep := some (clampNeed (base.sleep.getD (.num 0))) }

/-- `{ ...defaultState.ownedPets, ...(p ?? {}) }`. -/
def mergePets (p : Option RawPets) : RawPets :=
  let q := p.getD RawPets.empty
  { pig := some (q.pig.getD true)
    dog := some (q.dog.getD true)
    cat := some (q.cat.getD true)
    fox := some (q.fox.getD true)
    bunny := some (q.bunny.getD true)
    unicorn := some (q.unicorn.getD false)
    snake := some (q.snake.getD false)
    panda := some (q.panda.getD false)
    dragon := some (q.dragon.getD false) }

/-- `{ ...defaultState.ownedAccessories, ...(o ?? {}) }` (values are passed
through unvalidated). -/
def mergeOwnedAcc (o : Option RawOwnedAcc) : RawOwnedAcc :=
  let q := o.getD RawOwnedAcc.empty
  { collar := some (q.collar.getD (.num 0))
    leash := some (q.leash.getD (.num 0))
    headband := some (q.headband.getD (.num 0)) }

/-- `{ ...defaultState.equippedAccessories, ...(e ?? {}) }`. -/
def mergeEquip (e : Option RawEquip) : RawEquip :=
  let q := e.getD RawEquip.empty
  { collar := some (q.collar.getD false)
    leash := some (q.leash.getD false)
    headband := some (q.headband.getD false) }

/-- `{ ...defaultState.badges, ...(b ?? {}) }`. -/
def mergeBadges (b : Option RawBadges) : RawBadges :=
  let q := b.getD RawBadges.empty
  { accessory_1 := some (q.accessory_1.getD false)
    accessory_2 := some (q.accessory_2.getD false)
    accessory_4 := some (q.accessory_4.getD false)
    days_5 := some (q.days_5.getD false)
    days_10 := some (q.days_10.getD false)
    days_15 := some (q.days_15.getD false)
    days_25 := some (q.days_25.getD false)
    days_50 := some (q.days_50.getD false)
    days_100 := some (q.days_100.getD false) }

/-- `normalize(s)`: every field of the result is explicitly rebuilt, so the
initial `{ ...defaultState, ...s }` spread is only visible through the
defaults used by the per-field merges. -/
def normalize (s : RawState) : RawState :=
  { needs := some (clampNeeds s.needs)
    money := some (jsMax (.num 0) (jsOrZero (jsToNumber s.money)))
    animalId := some (s.animalId.getD .dog)
    ownedPets := some (mergePets s.ownedPets)
    ownedAccessories := some (mergeOwnedAcc s.ownedAccessories)
    equippedAccessories := some (mergeEquip s.equippedAccessories)
    badges := some (mergeBadges s.badges)
    daysPlayed := some (jsMax (.num 0) (jsOrZero (jsToNumber s.daysPlayed)))
    transactions := some (s.transactions.getD []) }

/-- `totalAccessoriesOwned(o)`: `(o.collar ?? 0) + (o.leash ?? 0) + (o.headband ?? 0)`. -/
def totalAccessoriesOwned (o : RawOwnedAcc) : JSNum :=
  jsAdd (jsAdd (o.collar.getD (.num 0)) (o.leash.getD (.num 0))) (o.headband.getD (.num 0))

/-- `computeBadges(s)`: badge flags as pure threshold functions of the owned
accessory total and `daysPlayed`. -/
def computeBadges (s : RawState) : RawBadges :=
  let acc := totalAccessoriesOwned (s.ownedAccessories.getD RawOwnedAcc.empty)
  let d := jsToNumber s.daysPlayed
  { accessory_1 := some (jsGe acc (.num 1))
    accessory_2 := some (jsGe acc (.num 2))
    accessory_4 := some (jsGe acc (.num 4))
    days_5 := some (jsGe d (.num 5))
    days_10 := some (jsGe d (.num 10))
    days_15 := some (jsGe d (.num 15))
    days_25 := some (jsGe d (.num 25))
    days_50 := some (jsGe d (.num 50))
    days_100 := some (jsGe d (.num 100)) }

/-- `allNeedsComplete(needs)`: `(needs.x ?? 0) >= 100` for all five needs. -/
def allNeedsComplete (n : RawNeeds) : Bool :=
  jsGe (n.hunger.getD (.num 0)) (.num 100) &&
  jsGe (n.thirst.getD (.num 0)) (.num 100) &&
  jsGe (n.health.getD (.num 0)) (.num 100) &&
  jsGe (n.fn.getD (.num 0)) (.num 100) &&
  jsGe (n.sleep.getD (.num 0)) (.num 100)

/-! ## Commit (`persist`) and the day-advance trigger

`persist` also writes to `localStorage` (best effort, errors swallowed) and
synchronously notifies listeners; neither touches the game state, so the
model keeps only the state assignment. -/

/-- The pure state transformation performed by `persist`:
normalize the candidate, then override `badges` with freshly derived ones. -/
def persist (nextRaw : RawState) : RawState :=
  let normalized := normalize nextRaw
  { normalized with badges := some (computeBadges normalized) }

/-- `advanceDayBecauseNeedsComplete`: bump `daysPlayed` and reset the needs
to the default baseline in one commit.  (The per-pet age bump it also
performs lives outside the game state and is not modelled.) -/
def advanceDayBecauseNeedsComplete (s : RawState) : RawState :=
  persist
    { s with
      daysPlayed := some (jsAdd (s.daysPlayed.getD (.num 0)) (.num 1))
      needs := some defaultNeeds }

/-! ## Field access helpers

JavaScript reads fields off the in-memory state directly
(e.g. `state.ownedAccessories[accessory] ?? 0`); these helpers perform the
same reads, treating a missing record as empty. -/

/-- `state.needs` (missing record read as empty) at one key. -/
def needsOf (s : RawState) (i : NeedId) : Option JSNum :=
  (s.needs.getD RawNeeds.empty).get i

/-- `state.ownedAccessories[a] ?? 0`. -/
def ownedOf (s : RawState) (a : AccessoryId) : JSNum :=
  ((s.ownedAccessories.getD RawOwnedAcc.empty).get a).getD (.num 0)

/-- `state.equippedAccessories[a]`. -/
def equipOf (s : RawState) (a : AccessoryId) : Option Bool :=
  (s.equippedAccessories.getD RawEquip.empty).get a

/-- `state.ownedPets[p]`. -/
def petOwnedOf (s : RawState) (p : AnimalId) : Option Bool :=
  (s.ownedPets.getD RawPets.empty).get p

/-- `totalAccessoriesOwned(state.ownedAccessories)`. -/
def totalOwnedOf (s : RawState) : JSNum :=
  totalAccessoriesOwned (s.ownedAccessories.getD RawOwnedAcc.empty)

/-! ## Public mutators -/

/-- `setSelectedPet(animalId)`. -/
def setSelectedPet (animalId : AnimalId) (s : RawState) : RawState :=
  persist { s with animalId := some animalId }

/-- `setEquippedAccessory(accessory, equipped)`: refuses to equip an
accessory whose owned count is not `> 0`. -/
def setEquippedAccessory (accessory : AccessoryId) (equipped : Bool) (s : RawState) :
    RawState :=
  if equipped && jsLe (ownedOf s accessory) (.num 0) then s
  else
    persist
      { s with
        equippedAccessories :=
          some ((s.equippedAccessories.getD RawEquip.empty).set accessory (some equipped)) }

/-- Caller-supplied part of an `addTransaction` argument
(`Omit<Transaction, "id" | "createdAt">`). -/
structure TxInput where
  type : TxType
  amount : JSNum
  category : String
  note : String
deriving DecidableEq

/-- The record `addTransaction` builds (`uid()` and `Date.now()` results are
passed in as `newId` / `now`). -/
def mkNextTransaction (tx : TxInput) (newId : String) (now : JSNum) : Transaction :=
  { id := newId
    createdAt := now
    type := tx.type
    amount := jsMax (.num 0) (jsRound tx.amount)
    category := tx.category
    note := tx.note }

/-- `addTransaction(tx)`: prepend the new record and keep the first 250. -/
def addTransaction (tx : TxInput) (newId : String) (now : JSNum) (s : RawState) :
    RawState :=
  persist
    { s with
      transactions :=
        some ((mkNextTransaction tx newId now :: s.transactions.getD []).take 250) }

/-- The optional `meta` argument of `applyMoneyDelta`. -/
structure TxMeta where
  category : Option String
  note : Option String
deriving DecidableEq

/-- The transaction `applyMoneyDelta` synthesizes. -/
def mkMoneyTransaction (delta : JSNum) (meta : Option TxMeta) (newId : String)
    (now : JSNum) : Transaction :=
  let type : TxType := if jsGe delta (.num 0) then .income else .expense
  { id := newId
    createdAt := now
    type := type
    amount := jsAbs (jsRound delta)
    category := (meta.bind TxMeta.category).getD
      (if type = .income then "Game Earned" else "Game Spent")
    note := (meta.bind TxMeta.note).getD
      (if type = .income then "Earned on Map" else "Spent on Map") }

/-- `applyMoneyDelta(delta, meta?)`: add `delta` to `money` (rounded,
floored at 0) and log a synthesized transaction. -/
def applyMoneyDelta (delta : JSNum) (meta : Option TxMeta) (newId : String)
    (now : JSNum) (s : RawState) : RawState :=
  persist
    { s with
      money := some (jsMax (.num 0) (jsRound (jsAdd (jsToNumber s.money) delta)))
      transactions :=
        some ((mkMoneyTransaction delta meta newId now :: s.transactions.getD []).take 250) }

/-- The rising-edge condition evaluated inside `setNeed`: the pre-update
needs are not saturated and the clamped post-update needs are. -/
def setNeedCrosses (need : NeedId) (value : JSNum) (s : RawState) : Bool :=
  !allNeedsComplete (s.needs.getD RawNeeds.empty) &&
    allNeedsComplete (clampNeeds (some ((s.needs.getD RawNeeds.empty).set need (some value))))

/-- `setNeed(need, value)`: store the clamped update, then advance the day
only on a rising edge of "all needs complete". -/
def setNeed (need : NeedId) (value : JSNum) (s : RawState) : RawState :=
  let prevComplete := allNeedsComplete (s.needs.getD RawNeeds.empty)
  let nextNeeds := clampNeeds (some ((s.needs.getD RawNeeds.empty).set need (some value)))
  let nextComplete := allNeedsComplete nextNeeds
  let s1 := persist { s with needs := some nextNeeds }
  if !prevComplete && nextComplete then advanceDayBecauseNeedsComplete s1 else s1

/-- `bumpNeed(need, delta)`: `setNeed(need, (state.needs?.[need] ?? 0) + delta)`. -/
def bumpNeed (need : NeedId) (delta : JSNum) (s : RawState) : RawState :=
  let current := (needsOf s need).getD (.num 0)
  setNeed need (jsAdd current delta) s

/-- `incrementDaysPlayed(_by)`: deliberately a no-op (days are needs-based). -/
def incrementDaysPlayed (_by : JSNum) (s : RawState) : RawState := s

/-- `addOwnedAccessory(accessory, count = 1)`. -/
def addOwnedAccessory (accessory : AccessoryId) (count : JSNum) (s : RawState) :
    RawState :=
  let add := jsMax (.num 0) (jsFloor (jsOrZero count))
  if jsLe add (.num 0) then s
  else
    persist
      { s with
        ownedAccessories :=
          some ((s.ownedAccessories.getD RawOwnedAcc.empty).set accessory
            (some (jsMax (.num 0) (jsAdd (ownedOf s accessory) add)))) }

/-- `purchasePremiumPet(petId, cost)`. -/
def purchasePremiumPet (petId : AnimalId) (cost : JSNum) (newId : String)
    (now : JSNum) (s : RawState) : RawState :=
  if (petOwnedOf s petId).getD false then s
  else
    let price := jsMax (.num 0) (jsRound cost)
    if jsLt (jsToNumber s.money) price then s
    else
      let nextTx : Transaction :=
        { id := newId
          createdAt := now
          type := .expense
          amount := price
          category := "Pet Purchase"
          note := "Purchased " ++ petId.str }
      persist
        { s with
          money := some (jsMax (.num 0) (jsSub (jsToNumber s.money) price))
          ownedPets := some ((s.ownedPets.getD RawPets.empty).set petId (some true))
          transactions := some ((nextTx :: s.transactions.getD []).take 250) }

/-! ## Boot state and reachability -/

/-- The in-memory state when no (valid) persisted data exists:
`{ ...defaultState, badges: computeBadges(defaultState) }`. -/
def initState : RawState :=
  { defaultState with badges := some (computeBadges defaultState) }

/-- One public mutator call. -/
inductive Step : RawState → RawState → Prop
  | selectPet (s : RawState) (a : AnimalId) : Step s (setSelectedPet a s)
  | equip (s : RawState) (a : AccessoryId) (e : Bool) : Step s (setEquippedAccessory a e s)
  | addTx (s : RawState) (tx : TxInput) (newId : String) (now : JSNum) :
      Step s (addTransaction tx newId now s)
  | moneyDelta (s : RawState) (d : JSNum) (meta : Option TxMeta) (newId : String)
      (now : JSNum) : Step s (applyMoneyDelta d meta newId now s)
  | need (s : RawState) (n : NeedId) (v : JSNum) : Step s (setNeed n v s)
  | bump (s : RawState) (n : NeedId) (d : JSNum) : Step s (bumpNeed n d s)
  | incDays (s : RawState) (b : JSNum) : Step s (incrementDaysPlayed b s)
  | addAcc (s : RawState) (a : AccessoryId) (c : JSNum) : Step s (addOwnedAccessory a c s)
  | purchase (s : RawState) (p : AnimalId) (c : JSNum) (newId : String) (now : JSNum) :
      Step s (purchasePremiumPet p c newId now s)

/-- States the store can hold when booted from the default state and driven
through the public mutator API. -/
inductive Reachable : RawState → Prop
  | init : Reachable initState
  | step {s s' : RawState} : Reachable s → Step s s' → Reachable s'

/-- Folding a list of `addOwnedAccessory` calls over a state. -/
def runAcc (calls : List (AccessoryId × JSNum)) (s : RawState) : RawState :=
  calls.foldl (fun st c => addOwnedAccessory c.1 c.2 st) s

/-- One `addTransaction` call with its oracle inputs. -/
structure TxCall where
  tx : TxInput
  newId : String
  now : JSNum
deriving DecidableEq

/-- Folding a list of `addTransaction` calls over a state. -/
def runTx (calls : List TxCall) (s : RawState) : RawState :=
  calls.foldl (fun st c => addTransaction c.tx c.newId c.now st) s

/-! ## Basic lemmas about `persist` and the normalization pipeline -/

theorem persist_needs (r : RawState) : (persist r).needs = some (clampNeeds r.needs) := rfl

theorem persist_money (r : RawState) :
    (persist r).money = some (jsMax (.num 0) (jsOrZero (jsToNumber r.money))) := rfl

theorem persist_daysPlayed (r : RawState) :
    (persist r).daysPlayed = some (jsMax (.num 0) (jsOrZero (jsToNumber r.daysPlayed))) := rfl

theorem persist_transactions (r : RawState) :
    (persist r).transactions = some (r.transactions.getD []) := rfl

theorem persist_ownedAccessories (r : RawState) :
    (persist r).ownedAccessories = some (mergeOwnedAcc r.ownedAccessories) := rfl

theorem persist_equippedAccessories (r : RawState) :
    (persist r).equippedAccessories = some (mergeEquip r.equippedAccessories) := rfl

theorem persist_ownedPets (r : RawState) :
    (persist r).ownedPets = some (mergePets r.ownedPets) := rfl

/-- After every commit the badges are exactly the derived badges of the
committed state: `computeBadges` only reads `ownedAccessories` and
`daysPlayed`, on which `persist r` and `normalize r` agree. -/
theorem persist_badges (r : RawState) :
    (persist r).badges = some (computeBadges (persist r)) := rfl

/-- `clampNeed` always yields an integer in `[0, 100]`. -/
theorem clampNeed_int (v : JSNum) :
    ∃ k : ℤ, clampNeed v = .num (k : ℚ) ∧ 0 ≤ k ∧ k ≤ 100 := by
  cases v with
  | num q =>
    refine ⟨max 0 (min 100 ⌊q + 1/2⌋), ?_, le_max_left _ _, ?_⟩
    · rw [clampNeed]
      simp only [JSNum.isFinite, if_pos]
      rw [jsRound_num, jsMin_num, jsMax_num]
      push_cast
      rfl
    · rcases le_or_lt (⌊q + 1/2⌋ : ℤ) 100 with h | h
      · rw [min_eq_right h]
        exact max_le (by norm_num) h
      · rw [min_eq_left h.le]
        norm_num
  | nan => exact ⟨0, rfl, le_refl _, by norm_num⟩
  | inf => exact ⟨0, rfl, le_refl _, by norm_num⟩
  | negInf => exact ⟨0, rfl, le_refl _, by norm_num⟩

/-- `clampNeed` is the identity on integers already in `[0, 100]`. -/
theorem clampNeed_num_int (k : ℤ) (h0 : 0 ≤ k) (h1 : k ≤ 100) :
    clampNeed (.num (k : ℚ)) = .num (k : ℚ) := by
  rw [clampNeed]
  simp only [JSNum.isFinite, if_pos]
  rw [jsRound_num, jsMin_num, jsMax_num]
  have hfloor : ⌊(k : ℚ) + 1/2⌋ = k := by
    rw [Int.floor_eq_iff]
    constructor
    · exact le_add_of_nonneg_right (by norm_num)
    · norm_num
  rw [hfloor]
  rw [min_eq_right (by exact_mod_cast h1), max_eq_right (by exact_mod_cast h0)]

/-- `clampNeed` is idempotent. -/
theorem clampNeed_idem (v : JSNum) : clampNeed (clampNeed v) = clampNeed v := by
  obtain ⟨k, hk, h0, h1⟩ := clampNeed_int v
  rw [hk, clampNeed_num_int k h0 h1]

/-- `clampNeeds` is idempotent. -/
theorem clampNeeds_idem (n : Option RawNeeds) :
    clampNeeds (some (clampNeeds n)) = clampNeeds n := by
  simp only [clampNeeds, Option.getD_some, clampNeed_idem]

/-- One round of `Math.max(0, x || 0)` fixes a second round. -/
theorem jsMaxOrZero_idem (x : JSNum) :
    jsMax (.num 0) (jsOrZero (jsMax (.num 0) (jsOrZero x))) =
      jsMax (.num 0) (jsOrZero x) := by
  cases x with
  | num q =>
    by_cases h : q = 0
    · subst h
      simp [jsOrZero, JSNum.truthy, jsMax]
    · have hin : jsOrZero (JSNum.num q) = .num q := by simp [jsOrZero, JSNum.truthy, h]
      rw [hin, jsMax_num]
      by_cases h2 : max 0 q = 0
      · rw [h2]
        simp [jsOrZero, JSNum.truthy, jsMax]
      · have hin2 : jsOrZero (JSNum.num (max 0 q)) = .num (max 0 q) := by
          simp [jsOrZero, JSNum.truthy, h2]
        rw [hin2, jsMax_num, ← max_assoc, max_self]
  | nan => rfl
  | inf => rfl
  | negInf => rfl

/-- The merges performed by `normalize` are idempotent (a merged record has
every field present, so merging it again changes nothing). -/
theorem mergePets_idem (p : Option RawPets) : mergePets (some (mergePets p)) = mergePets p := rfl

theorem mergeOwnedAcc_idem (o : Option RawOwnedAcc) :
    mergeOwnedAcc (some (mergeOwnedAcc o)) = mergeOwnedAcc o := rfl

theorem mergeEquip_idem (e : Option RawEquip) :
    mergeEquip (some (mergeEquip e)) = mergeEquip e := rfl

theorem mergeBadges_idem (b : Option RawBadges) :
    mergeBadges (some (mergeBadges b)) = mergeBadges b := rfl

/-- A merge applied to an all-fields-present record is the identity. -/
theorem mergeOwnedAcc_allsome (c l h : JSNum) :
    mergeOwnedAcc (some ⟨some c, some l, some h⟩) = ⟨some c, some l, some h⟩ := rfl

theorem mergeEquip_allsome (c l h : Bool) :
    mergeEquip (some ⟨some c, some l, some h⟩) = ⟨some c, some l, some h⟩ := rfl

/-! ## Claim C3: the normalizer is pure and idempotent -/

/-- C3: `normalize` is pure and idempotent.  Purity holds by construction:
the source function only reads its argument and builds a fresh object, and
its model is a Lean function.  Idempotence: for every raw input `x`
(missing fields, partial nested records, out-of-range or non-finite
numbers, fully valid states), `normalize (normalize x) = normalize x`. -/
theorem normalize_idempotent (x : RawState) : normalize (normalize x) = normalize x := by
  simp only [normalize, jsToNumber_some, Option.getD_some, clampNeeds_idem, jsMaxOrZero_idem,
    mergePets_idem, mergeOwnedAcc_idem, mergeEquip_idem, mergeBadges_idem]

/-! ## Invariant of store-held states -/

/-- A JS number that is a non-negative rational or `+Infinity`: the shape
owned-accessory counts keep under the mutator API. -/
def NNum (x : JSNum) : Prop := (∃ q : ℚ, x = .num q ∧ 0 ≤ q) ∨ x = .inf

/-- Invariant of every state the store holds when booted from the default
state: `daysPlayed` is a natural number, the accessory records are fully
populated with well-shaped counts, an equipped accessory has owned count
`> 0` (in the JS sense), and the badges are exactly the derived badges. -/
structure Inv (s : RawState) : Prop where
  days : ∃ k : ℕ, s.daysPlayed = some (.num (k : ℚ))
  acc : ∃ (c l h : JSNum) (ec el eh : Bool),
      s.ownedAccessories = some ⟨some c, some l, some h⟩ ∧
      s.equippedAccessories = some ⟨some ec, some el, some eh⟩ ∧
      NNum c ∧ NNum l ∧ NNum h ∧
      (ec = true → jsLe c (.num 0) = false) ∧
      (el = true → jsLe l (.num 0) = false) ∧
      (eh = true → jsLe h (.num 0) = false)
  badgesDerived : s.badges = some (computeBadges s)

theorem inv_init : Inv initState := by
  refine ⟨⟨0, by simp [initState, defaultState]⟩, ?_, rfl⟩
  refine ⟨.num 0, .num 0, .num 0, false, false, false, ?_, ?_, ?_, ?_, ?_, ?_, ?_, ?_⟩
  · simp [initState, defaultState, defaultOwnedAcc]
  · simp [initState, defaultState, defaultEquip]
  · exact Or.inl ⟨0, rfl, le_refl 0⟩
  · exact Or.inl ⟨0, rfl, le_refl 0⟩
  · exact Or.inl ⟨0, rfl, le_refl 0⟩
  · intro h
    simp at h
  · intro h
    simp at h
  · intro h
    simp at h

/-- `persist` preserves the invariant whenever the candidate keeps the
previous accessory records and carries a natural-number `daysPlayed`. -/
theorem inv_persist {s r : RawState} (hs : Inv s)
    (hd : ∃ k : ℕ, r.daysPlayed = some (.num (k : ℚ)))
    (ho : r.ownedAccessories = s.ownedAccessories)
    (he : r.equippedAccessories = s.equippedAccessories) : Inv (persist r) := by
  obtain ⟨k, hk⟩ := hd
  obtain ⟨c, l, h, ec, el, eh, hoa, hea, hc, hl, hh, pc, pl, ph⟩ := hs.acc
  refine ⟨⟨k, ?_⟩, ?_, persist_badges r⟩
  · rw [persist_daysPlayed, hk, jsToNumber_some,
      jsMax_zero_orZero_num (by exact_mod_cast Nat.zero_le k)]
  · refine ⟨c, l, h, ec, el, eh, ?_, ?_, hc, hl, hh, pc, pl, ph⟩
    · rw [persist_ownedAccessories, ho, hoa, mergeOwnedAcc_allsome]
    · rw [persist_equippedAccessories, he, hea, mergeEquip_allsome]

/-- The `add` amount computed by `addOwnedAccessory` is always well-shaped. -/
theorem addExpr_NN (c : JSNum) : NNum (jsMax (.num 0) (jsFloor (jsOrZero c))) := by
  cases c with
  | num q =>
    by_cases h : q = 0
    · subst h
      exact Or.inl ⟨0, by simp [jsOrZero, JSNum.truthy, jsMax], le_refl 0⟩
    · have hin : jsOrZero (JSNum.num q) = .num q := by simp [jsOrZero, JSNum.truthy, h]
      rw [hin, jsFloor_num, jsMax_num]
      refine Or.inl ⟨max 0 (⌊q⌋ : ℚ), rfl, le_max_left _ _⟩
  | nan => exact Or.inl ⟨0, by simp [jsOrZero, JSNum.truthy, jsMax], le_refl 0⟩
  | inf => exact Or.inr (by simp [jsOrZero, JSNum.truthy, jsMax, jsFloor, jsLt])
  | negInf => exact Or.inl ⟨0, by simp [jsOrZero, JSNum.truthy, jsMax, jsFloor, jsLt], le_refl 0⟩

/-- Adding a positive well-shaped amount to a well-shaped count yields a
well-shaped, positive count. -/
theorem newOwned_pos {old addv : JSNum} (hold : NNum old) (hadd : NNum addv)
    (hpos : jsLe addv (.num 0) = false) :
    NNum (jsMax (.num 0) (jsAdd old addv)) ∧
      jsLe (jsMax (.num 0) (jsAdd old addv)) (.num 0) = false := by
  rcases hold with ⟨q, rfl, hq⟩ | rfl
  · rcases hadd with ⟨a, rfl, _⟩ | rfl
    · have ha : 0 < a := by
        by_contra hcon
        push_neg at hcon
        simp [hcon] at hpos
      have hqa : 0 < q + a := by linarith
      rw [jsAdd_num, jsMax_num, max_eq_right (le_of_lt hqa)]
      exact ⟨Or.inl ⟨q + a, rfl, le_of_lt hqa⟩, by simp [hqa.not_le]⟩
    · refine ⟨Or.inr ?_, ?_⟩ <;> simp [jsAdd, jsMax, jsLt, jsLe]
  · rcases hadd with ⟨a, rfl, _⟩ | rfl
    · refine ⟨Or.inr ?_, ?_⟩ <;> simp [jsAdd, jsMax, jsLt, jsLe]
    · refine ⟨Or.inr ?_, ?_⟩ <;> simp [jsAdd, jsMax, jsLt, jsLe]

theorem inv_setSelectedPet {s : RawState} (a : AnimalId) (hs : Inv s) :
    Inv (setSelectedPet a s) :=
  inv_persist hs hs.days rfl rfl

theorem inv_addTransaction {s : RawState} (tx : TxInput) (newId : String) (now : JSNum)
    (hs : Inv s) : Inv (addTransaction tx newId now s) :=
  inv_persist hs hs.days rfl rfl

theorem inv_applyMoneyDelta {s : RawState} (d : JSNum) (meta : Option TxMeta)
    (newId : String) (now : JSNum) (hs : Inv s) :
    Inv (applyMoneyDelta d meta newId now s) :=
  inv_persist hs hs.days rfl rfl

theorem inv_purchasePremiumPet {s : RawState} (p : AnimalId) (c : JSNum)
    (newId : String) (now : JSNum) (hs : Inv s) :
    Inv (purchasePremiumPet p c newId now s) := by
  simp only [purchasePremiumPet]
  split_ifs with h1 h2
  · exact hs
  · exact hs
  · exact inv_persist hs hs.days rfl rfl

theorem inv_setEquippedAccessory {s : RawState} (a : AccessoryId) (e : Bool) (hs : Inv s) :
    Inv (setEquippedAccessory a e s) := by
  rw [setEquippedAccessory]
  split_ifs with hguard
  · exact hs
  · obtain ⟨c, l, h, ec, el, eh, hoa, hea, hc, hl, hh, pc, pl, ph⟩ := hs.acc
    obtain ⟨k, hk⟩ := hs.days
    have hpos : e = true → jsLe (ownedOf s a) (.num 0) = false := by
      intro he'
      subst he'
      cases hle : jsLe (ownedOf s a) (.num 0)
      · rfl
      · exact absurd (by simp [hle]) hguard
    have hOwned :
        (persist
          { s with
            equippedAccessories :=
              some ((s.equippedAccessories.getD RawEquip.empty).set a (some e)) }).ownedAccessories
          = some (⟨some c, some l, some h⟩ : RawOwnedAcc) := by
      rw [persist_ownedAccessories]
      show some (mergeOwnedAcc s.ownedAccessories) = _
      rw [hoa, mergeOwnedAcc_allsome]
    have hEquip :
        (persist
          { s with
            equippedAccessories :=
              some ((s.equippedAccessories.getD RawEquip.empty).set a (some e)) }).equippedAccessories
          = some (mergeEquip (some ((⟨some ec, some el, some eh⟩ : RawEquip).set a (some e)))) := by
      rw [persist_equippedAccessories]
      show some (mergeEquip (some ((s.equippedAccessories.getD RawEquip.empty).set a (some e)))) = _
      rw [hea, Option.getD_some]
    have hOwnedVal :
        ownedOf s a = ((⟨some c, some l, some h⟩ : RawOwnedAcc).get a).getD (.num 0) := by
      rw [ownedOf, hoa, Option.getD_some]
    refine ⟨⟨k, ?_⟩, ?_, persist_badges _⟩
    · rw [persist_daysPlayed]
      show some (jsMax (.num 0) (jsOrZero (jsToNumber s.daysPlayed))) = _
      rw [hk, jsToNumber_some, jsMax_zero_orZero_num (by exact_mod_cast Nat.zero_le k)]
    · cases a with
      | collar =>
        refine ⟨c, l, h, e, el, eh, hOwned, hEquip, hc, hl, hh, ?_, pl, ph⟩
        intro he'
        have := hpos he'
        rwa [hOwnedVal] at this
      | leash =>
        refine ⟨c, l, h, ec, e, eh, hOwned, hEquip, hc, hl, hh, pc, ?_, ph⟩
        intro he'
        have := hpos he'
        rwa [hOwnedVal] at this
      | headband =>
        refine ⟨c, l, h, ec, el, e, hOwned, hEquip, hc, hl, hh, pc, pl, ?_⟩
        intro he'
        have := hpos he'
        rwa [hOwnedVal] at this

theorem inv_addOwnedAccessory {s : RawState} (a : AccessoryId) (cnt : JSNum) (hs : Inv s) :
    Inv (addOwnedAccessory a cnt s) := by
  rw [addOwnedAccessory]
  split_ifs with hguard
  · exact hs
  · obtain ⟨c, l, h, ec, el, eh, hoa, hea, hc, hl, hh, pc, pl, ph⟩ := hs.acc
    obtain ⟨k, hk⟩ := hs.days
    have hgpos : jsLe (jsMax (.num 0) (jsFloor (jsOrZero cnt))) (.num 0) = false := by
      cases hle : jsLe (jsMax (.num 0) (jsFloor (jsOrZero cnt))) (.num 0)
      · rfl
      · exact absurd (by simp [hle]) hguard
    have hadd := addExpr_NN cnt
    have hgetD : s.ownedAccessories.getD RawOwnedAcc.empty = ⟨some c, some l, some h⟩ := by
      rw [hoa, Option.getD_some]
    have hOwnedVal :
        ownedOf s a = ((⟨some c, some l, some h⟩ : RawOwnedAcc).get a).getD (.num 0) := by
      rw [ownedOf, hgetD]
    have hEquip : ∀ r : RawState, r.equippedAccessories = s.equippedAccessories →
        (persist r).equippedAccessories = some (⟨some ec, some el, some eh⟩ : RawEquip) := by
      intro r hr
      rw [persist_equippedAccessories, hr, hea, mergeEquip_allsome]
    have hOwned : ∀ w : JSNum,
        (persist
          { s with
            ownedAccessories :=
              some ((s.ownedAccessories.getD RawOwnedAcc.empty).set a (some w)) }).ownedAccessories
          = some (mergeOwnedAcc (some ((⟨some c, some l, some h⟩ : RawOwnedAcc).set a (some w)))) := by
      intro w
      rw [persist_ownedAccessories]
      show some (mergeOwnedAcc (some ((s.ownedAccessories.getD RawOwnedAcc.empty).set a (some w)))) = _
      rw [hgetD]
    refine ⟨⟨k, ?_⟩, ?_, persist_badges _⟩
    · rw [persist_daysPlayed]
      show some (jsMax (.num 0) (jsOrZero (jsToNumber s.daysPlayed))) = _
      rw [hk, jsToNumber_some, jsMax_zero_orZero_num (by exact_mod_cast Nat.zero_le k)]
    · cases a with
      | collar =>
        rw [(hOwnedVal : ownedOf s AccessoryId.collar = c)]
        obtain ⟨hNN, hP⟩ := newOwned_pos hc hadd hgpos
        exact ⟨_, l, h, ec, el, eh, hOwned _, hEquip _ rfl, hNN, hl, hh, fun _ => hP, pl, ph⟩
      | leash =>
        rw [(hOwnedVal : ownedOf s AccessoryId.leash = l)]
        obtain ⟨hNN, hP⟩ := newOwned_pos hl hadd hgpos
        exact ⟨c, _, h, ec, el, eh, hOwned _, hEquip _ rfl, hc, hNN, hh, pc, fun _ => hP, ph⟩
      | headband =>
        rw [(hOwnedVal : ownedOf s AccessoryId.headband = h)]
        obtain ⟨hNN, hP⟩ := newOwned_pos hh hadd hgpos
        exact ⟨c, l, _, ec, el, eh, hOwned _, hEquip _ rfl, hc, hl, hNN, pc, pl, fun _ => hP⟩

theorem inv_setNeed {s : RawState} (n : NeedId) (v : JSNum) (hs : Inv s) :
    Inv (setNeed n v s) := by
  rw [setNeed]
  have h1 : Inv (persist { s with
      needs := some (clampNeeds (some ((s.needs.getD RawNeeds.empty).set n (some v)))) }) :=
    inv_persist hs hs.days rfl rfl
  split_ifs with hcross
  · rw [advanceDayBecauseNeedsComplete]
    obtain ⟨k, hk⟩ := h1.days
    refine inv_persist h1 ⟨k + 1, ?_⟩ rfl rfl
    show some (jsAdd (Option.getD _ (.num 0)) (.num 1)) = _
    rw [hk, Option.getD_some, jsAdd_num]
    push_cast
    rfl
  · exact h1

theorem inv_bumpNeed {s : RawState} (n : NeedId) (d : JSNum) (hs : Inv s) :
    Inv (bumpNeed n d s) :=
  inv_setNeed n _ hs

/-- Every public mutator call preserves the invariant. -/
theorem inv_step {s s' : RawState} (hs : Inv s) (hstep : Step s s') : Inv s' := by
  cases hstep with
  | selectPet a => exact inv_setSelectedPet a hs
  | equip a e => exact inv_setEquippedAccessory a e hs
  | addTx tx newId now => exact inv_addTransaction tx newId now hs
  | moneyDelta d meta newId now => exact inv_applyMoneyDelta d meta newId now hs
  | need n v => exact inv_setNeed n v hs
  | bump n d => exact inv_bumpNeed n d hs
  | incDays b => exact hs
  | addAcc a c => exact inv_addOwnedAccessory a c hs
  | purchase p c newId now => exact inv_purchasePremiumPet p c newId now hs

/-- Every store-held state satisfies the invariant. -/
theorem inv_reachable {s : RawState} (h : Reachable s) : Inv s := by
  induction h with
  | init => exact inv_init
  | step _ hstep ih => exact inv_step ih hstep

/-! ## `setNeed` characterization and `daysPlayed` lemmas -/

/-- `setNeed` unfolded: one commit of the clamped needs, followed by the
day-advance commit exactly when the rising-edge condition holds. -/
theorem setNeed_eq (n : NeedId) (v : JSNum) (s : RawState) :
    setNeed n v s =
      if setNeedCrosses n v s then
        advanceDayBecauseNeedsComplete (persist
          { s with
            needs := some (clampNeeds (some ((s.needs.getD RawNeeds.empty).set n (some v)))) })
      else
        persist
          { s with
            needs := some (clampNeeds (some ((s.needs.getD RawNeeds.empty).set n (some v)))) } :=
  rfl

/-- `persist` keeps a non-negative numeric `daysPlayed` unchanged. -/
theorem persist_daysPlayed_nat {r : RawState} {q : ℚ} (hq : 0 ≤ q)
    (hd : r.daysPlayed = some (.num q)) :
    (persist r).daysPlayed = some (.num q) := by
  rw [persist_daysPlayed, hd, jsToNumber_some, jsMax_zero_orZero_num hq]

/-- `clampNeed` fixes `0`. -/
theorem clampNeed_zero : clampNeed (.num 0) = .num 0 :=
  of_decide_eq_true (by with_unfolding_all rfl)

/-- Clamping the default needs changes nothing. -/
theorem clampNeeds_default : clampNeeds (some defaultNeeds) = defaultNeeds :=
  of_decide_eq_true (by with_unfolding_all rfl)

theorem jsGe_zero_hundred : jsGe (.num 0) (.num 100) = false := by
  rw [jsGe_num]
  exact decide_eq_false (by norm_num)

/-- `daysPlayed` after `setNeed`: `+1` on a rising edge, unchanged otherwise. -/
theorem setNeed_daysPlayed {s : RawState} {q : ℚ} (hq : 0 ≤ q)
    (hd : s.daysPlayed = some (.num q)) (n : NeedId) (v : JSNum) :
    (setNeed n v s).daysPlayed =
      if setNeedCrosses n v s then some (.num (q + 1)) else some (.num q) := by
  rw [setNeed_eq]
  by_cases h : setNeedCrosses n v s = true
  · rw [if_pos h, if_pos h, advanceDayBecauseNeedsComplete]
    have h1 : (persist
        { s with
          needs := some (clampNeeds (some ((s.needs.getD RawNeeds.empty).set n (some v))))
        }).daysPlayed = some (.num q) := persist_daysPlayed_nat hq hd
    refine persist_daysPlayed_nat (by linarith) ?_
    show some (jsAdd (Option.getD _ (.num 0)) (.num 1)) = _
    rw [h1, Option.getD_some, jsAdd_num]
  · rw [if_neg h, if_neg h]
    exact persist_daysPlayed_nat hq hd

/-- The needs stored by `setNeed`: the freshly reset defaults on a rising
edge, the clamped update otherwise. -/
theorem setNeed_needs (n : NeedId) (v : JSNum) (s : RawState) :
    (setNeed n v s).needs =
      if setNeedCrosses n v s then some defaultNeeds
      else some (clampNeeds (some ((s.needs.getD RawNeeds.empty).set n (some v)))) := by
  rw [setNeed_eq]
  by_cases h : setNeedCrosses n v s = true
  · rw [if_pos h, if_pos h, advanceDayBecauseNeedsComplete, persist_needs]
    show some (clampNeeds (some defaultNeeds)) = _
    rw [clampNeeds_default]
  · rw [if_neg h, if_neg h, persist_needs]
    show some (clampNeeds (some (clampNeeds (some ((s.needs.getD RawNeeds.empty).set n (some v)))))) = _
    rw [clampNeeds_idem]

/-- Right after a needs reset, no `setNeed` call can cross the finish line:
the four untouched needs are still `0`. -/
theorem setNeedCrosses_after_reset (n2 : NeedId) (v2 : JSNum) {sA : RawState}
    (h : sA.needs = some defaultNeeds) : setNeedCrosses n2 v2 sA = false := by
  rw [setNeedCrosses, h, Option.getD_some]
  cases n2 <;>
    simp [allNeedsComplete, clampNeeds, RawNeeds.set, defaultNeeds, Option.getD_some,
      clampNeed_zero, jsGe_zero_hundred]

/-! ## Example states used by witnesses and counterexamples -/

/-- A store state with needs `{hunger:100, thirst:100, health:100, fun:100,
sleep:99}` (the spec's day-advance example). -/
def exampleAlmostDone : RawState :=
  persist
    { defaultState with
      needs := some ⟨some (.num 100), some (.num 100), some (.num 100),
        some (.num 100), some (.num 99)⟩ }

/-- A store state with needs `{hunger:0, thirst:100, health:100, fun:100,
sleep:100}`. -/
def exampleHungerLeft : RawState :=
  persist
    { defaultState with
      needs := some ⟨some (.num 0), some (.num 100), some (.num 100),
        some (.num 100), some (.num 100)⟩ }

/-- A store state with `money = 50` and everything else default. -/
def exampleMoney50 : RawState :=
  persist { defaultState with money := some (.num 50) }

/-- A store state with `money = 500` and everything else default. -/
def exampleMoney500 : RawState :=
  persist { defaultState with money := some (.num 500) }

theorem defaultNeeds_get (n : NeedId) : defaultNeeds.get n = some (.num 0) := by
  cases n <;> rfl

theorem clampNeeds_get_set (b : RawNeeds) (n : NeedId) (v : JSNum) :
    (clampNeeds (some (b.set n (some v)))).get n = some (clampNeed v) := by
  cases n <;> rfl

/-! ## Claim C1: rising-edge-only day advance -/

/-- C1: the day-advance trigger fires on a rising edge only and exactly once
per crossing.  For a store state whose `daysPlayed` is a non-negative number
`q`: if the needs were not all `>= 100` before a `setNeed` call and are all
`>= 100` after the clamped update, `daysPlayed` becomes `q + 1` and all five
needs are reset to the default baseline (all `0`), and any immediately
following `setNeed` call leaves `daysPlayed` at `q + 1`; if the needs were
already complete before the call (level edge), or are not complete after it,
`daysPlayed` stays `q`. -/
theorem setNeed_rising_edge_day_advance (s : RawState) (q : ℚ) (hq : 0 ≤ q)
    (hd : s.daysPlayed = some (.num q)) (need : NeedId) (value : JSNum) :
    (allNeedsComplete (s.needs.getD RawNeeds.empty) = false →
      allNeedsComplete
          (clampNeeds (some ((s.needs.getD RawNeeds.empty).set need (some value)))) = true →
      (setNeed need value s).daysPlayed = some (.num (q + 1)) ∧
      (setNeed need value s).needs = some defaultNeeds ∧
      ∀ (n2 : NeedId) (v2 : JSNum),
        (setNeed n2 v2 (setNeed need value s)).daysPlayed = some (.num (q + 1))) ∧
    (allNeedsComplete (s.needs.getD RawNeeds.empty) = true →
      (setNeed need value s).daysPlayed = some (.num q)) ∧
    (allNeedsComplete
        (clampNeeds (some ((s.needs.getD RawNeeds.empty).set need (some value)))) = false →
      (setNeed need value s).daysPlayed = some (.num q)) := by
  refine ⟨?_, ?_, ?_⟩
  · intro hprev hnext
    have hcross : setNeedCrosses need value s = true := by
      rw [setNeedCrosses, hprev, hnext]
      rfl
    have hdays : (setNeed need value s).daysPlayed = some (.num (q + 1)) := by
      rw [setNeed_daysPlayed hq hd need value, if_pos hcross]
    have hneeds : (setNeed need value s).needs = some defaultNeeds := by
      rw [setNeed_needs, if_pos hcross]
    refine ⟨hdays, hneeds, ?_⟩
    intro n2 v2
    have hnc : setNeedCrosses n2 v2 (setNeed need value s) = false :=
      setNeedCrosses_after_reset n2 v2 hneeds
    rw [setNeed_daysPlayed (by linarith) hdays n2 v2, if_neg (by simp [hnc])]
  · intro hprev
    have hcross : setNeedCrosses need value s = false := by
      rw [setNeedCrosses, hprev]
      rfl
    rw [setNeed_daysPlayed hq hd need value, if_neg (by simp [hcross])]
  · intro hnext
    have hcross : setNeedCrosses need value s = false := by
      rw [setNeedCrosses, hnext, Bool.and_false]
    rw [setNeed_daysPlayed hq hd need value, if_neg (by simp [hcross])]

/-- Witness for C1 at the spec's example: needs `{100,100,100,100,99}`,
`setNeed("sleep", 100)` advances the day to `1` and resets the needs, and a
second `setNeed("sleep", 100)` right after does not advance again. -/
theorem setNeed_rising_edge_day_advance_witness :
    (setNeed .sleep (.num 100) exampleAlmostDone).daysPlayed = some (.num (0 + 1)) ∧
    (setNeed .sleep (.num 100) exampleAlmostDone).needs = some defaultNeeds ∧
    (setNeed .sleep (.num 100)
      (setNeed .sleep (.num 100) exampleAlmostDone)).daysPlayed = some (.num (0 + 1)) := by
  have h := (setNeed_rising_edge_day_advance exampleAlmostDone 0 (le_refl 0)
    (of_decide_eq_true (by with_unfolding_all rfl)) .sleep (.num 100)).1
    (of_decide_eq_true (by with_unfolding_all rfl))
    (of_decide_eq_true (by with_unfolding_all rfl))
  exact ⟨h.1, h.2.1, h.2.2 .sleep (.num 100)⟩

/-! ## Claim C2 (corrected): clamping of `setNeed` values -/

/-- Counterexample to C2 as stated: the claim says an input above 100 is
stored as 100, but when the clamped update completes the needs the
day-advance resets them, so `setNeed("hunger", 9999)` from
`{hunger:0, thirst:100, health:100, fun:100, sleep:100}` stores `0`, not
`100`. -/
theorem setNeed_clamp_claim_counterexample :
    (100 : ℚ) < 9999 ∧
    needsOf (setNeed .hunger (.num 9999) exampleHungerLeft) .hunger = some (.num 0) ∧
    needsOf (setNeed .hunger (.num 9999) exampleHungerLeft) .hunger ≠ some (.num 100) :=
  of_decide_eq_true (by with_unfolding_all rfl)

/-- C2 (amended): after `setNeed(need, value)` the stored value for that
need is an integer in `[0, 100]`.  When the call does not trigger a
day-advance the stored value is exactly `clampNeed value` — non-finite
inputs become `0`, finite inputs above `100` become `100`, below `0` become
`0`, and in-range inputs are rounded to the nearest integer (half up); when
the call does trigger a day-advance, the need is subsequently reset to the
default `0`. -/
theorem setNeed_clamped_value (s : RawState) (need : NeedId) (value : JSNum) :
    (∃ k : ℤ, 0 ≤ k ∧ k ≤ 100 ∧
      needsOf (setNeed need value s) need = some (.num (k : ℚ))) ∧
    (setNeedCrosses need value s = false →
      needsOf (setNeed need value s) need = some (clampNeed value)) ∧
    (setNeedCrosses need value s = true →
      needsOf (setNeed need value s) need = some (.num 0)) ∧
    (value.isFinite = false → clampNeed value = .num 0) ∧
    (∀ q : ℚ, value = .num q → 100 < q → clampNeed value = .num 100) ∧
    (∀ q : ℚ, value = .num q → q < 0 → clampNeed value = .num 0) ∧
    (∀ q : ℚ, value = .num q → 0 ≤ q → q ≤ 100 →
      clampNeed value = .num ((⌊q + 1/2⌋ : ℤ) : ℚ)) := by
  have hcase : needsOf (setNeed need value s) need =
      if setNeedCrosses need value s then some (.num 0) else some (clampNeed value) := by
    rw [needsOf, setNeed_needs]
    by_cases h : setNeedCrosses need value s = true
    · rw [if_pos h, if_pos h, Option.getD_some, defaultNeeds_get]
    · rw [if_neg h, if_neg h, Option.getD_some, clampNeeds_get_set]
  refine ⟨?_, ?_, ?_, ?_, ?_, ?_, ?_⟩
  · by_cases h : setNeedCrosses need value s = true
    · refine ⟨0, le_refl 0, by norm_num, ?_⟩
      rw [hcase, if_pos h]
      norm_num
    · obtain ⟨k, hk, h0, h100⟩ := clampNeed_int value
      refine ⟨k, h0, h100, ?_⟩
      rw [hcase, if_neg h, hk]
  · intro h
    rw [hcase, if_neg (by simp [h])]
  · intro h
    rw [hcase, if_pos h]
  · intro h
    cases value with
    | num q => simp [JSNum.isFinite] at h
    | nan => rfl
    | inf => rfl
    | negInf => rfl
  · rintro q rfl hgt
    have hfl : (100 : ℤ) ≤ ⌊q + 1/2⌋ := by
      rw [Int.le_floor]
      push_cast
      linarith
    rw [clampNeed]
    simp only [JSNum.isFinite, if_pos]
    rw [jsRound_num, jsMin_num, jsMax_num, min_eq_left (by exact_mod_cast hfl),
      max_eq_right (by norm_num)]
  · rintro q rfl hlt
    have hfl : ⌊q + 1/2⌋ ≤ 0 := by
      have h12 : ⌊(1/2 : ℚ)⌋ = 0 := by norm_num
      have hm : ⌊q + 1/2⌋ ≤ ⌊(1/2 : ℚ)⌋ := Int.floor_le_floor (by linarith)
      rw [h12] at hm
      exact hm
    have hcast : ((⌊q + 1/2⌋ : ℤ) : ℚ) ≤ 0 := by exact_mod_cast hfl
    rw [clampNeed]
    simp only [JSNum.isFinite, if_pos]
    rw [jsRound_num, jsMin_num, jsMax_num, min_eq_right (hcast.trans (by norm_num)),
      max_eq_left hcast]
  · rintro q rfl h0 h100
    have hlo : (0 : ℤ) ≤ ⌊q + 1/2⌋ := Int.floor_nonneg.mpr (by linarith)
    have hhi : ⌊q + 1/2⌋ ≤ 100 := by
      rw [Int.floor_le_iff]
      push_cast
      linarith
    rw [clampNeed]
    simp only [JSNum.isFinite, if_pos]
    rw [jsRound_num, jsMin_num, jsMax_num, min_eq_right (by exact_mod_cast hhi),
      max_eq_right (by exact_mod_cast hlo)]

/-- Witness for the amended C2: from the default state (needs all `0`),
`setNeed("hunger", 9999)` does not cross, and stores exactly
`clampNeed 9999 = 100`. -/
theorem setNeed_clamped_value_witness :
    needsOf (setNeed .hunger (.num 9999) initState) .hunger = some (clampNeed (.num 9999)) ∧
    clampNeed (.num 9999) = .num 100 := by
  refine ⟨(setNeed_clamped_value initState .hunger (.num 9999)).2.1
    (of_decide_eq_true (by with_unfolding_all rfl)), ?_⟩
  exact of_decide_eq_true (by with_unfolding_all rfl)

/-! ## Claim C8: equip requires ownership -/

/-- C8: in every store-held state an accessory can be equipped only if its
owned count is `> 0` (in the JS sense); equipping with owned count `0` is a
complete no-op; unequipping always succeeds. -/
theorem equip_requires_ownership (s : RawState) (hreach : Reachable s) :
    (∀ a : AccessoryId, equipOf s a = some true → jsLe (ownedOf s a) (.num 0) = false) ∧
    (∀ a : AccessoryId, ownedOf s a = .num 0 → setEquippedAccessory a true s = s) ∧
    (∀ a : AccessoryId, equipOf (setEquippedAccessory a false s) a = some false) := by
  obtain ⟨c, l, h, ec, el, eh, hoa, hea, _, _, _, pc, pl, ph⟩ := (inv_reachable hreach).acc
  have hequip : ∀ a : AccessoryId,
      equipOf s a = (⟨some ec, some el, some eh⟩ : RawEquip).get a := by
    intro a
    rw [equipOf, hea, Option.getD_some]
  have howned : ∀ a : AccessoryId,
      ownedOf s a = ((⟨some c, some l, some h⟩ : RawOwnedAcc).get a).getD (.num 0) := by
    intro a
    rw [ownedOf, hoa, Option.getD_some]
  refine ⟨?_, ?_, ?_⟩
  · intro a ha
    cases a with
    | collar =>
      rw [howned .collar]
      rw [hequip .collar] at ha
      exact pc (by simpa [RawEquip.get] using ha)
    | leash =>
      rw [howned .leash]
      rw [hequip .leash] at ha
      exact pl (by simpa [RawEquip.get] using ha)
    | headband =>
      rw [howned .headband]
      rw [hequip .headband] at ha
      exact ph (by simpa [RawEquip.get] using ha)
  · intro a ha
    rw [setEquippedAccessory, if_pos]
    rw [ha, Bool.true_and, jsLe_num]
    norm_num
  · intro a
    rw [setEquippedAccessory, if_neg (by simp), equipOf, persist_equippedAccessories,
      Option.getD_some]
    cases a <;> rfl

/-- Witness for C8 at the boot state: `collar` is not owned, so equipping it
is a no-op, and unequipping it succeeds. -/
theorem equip_requires_ownership_witness :
    setEquippedAccessory .collar true initState = initState ∧
    equipOf (setEquippedAccessory .collar false initState) .collar = some false := by
  have h := equip_requires_ownership initState Reachable.init
  exact ⟨h.2.1 .collar (of_decide_eq_true (by with_unfolding_all rfl)), h.2.2 .collar⟩

/-! ## Claim C9: `daysPlayed` monotone, incremented only by the trigger -/

/-- C9: in every store-held state `daysPlayed` is a non-negative integer; no
public mutator decreases it; every mutator except `setNeed`/`bumpNeed`
leaves it unchanged, and those two change it only by exactly `+1`, precisely
when the rising-edge day-advance condition holds; the exported
`incrementDaysPlayed` leaves the whole state unchanged for every argument. -/
theorem daysPlayed_monotone_exclusive (s : RawState) (hreach : Reachable s) :
    ∃ k : ℕ, s.daysPlayed = some (.num (k : ℚ)) ∧
      (∀ a : AnimalId, (setSelectedPet a s).daysPlayed = some (.num (k : ℚ))) ∧
      (∀ (a : AccessoryId) (e : Bool),
        (setEquippedAccessory a e s).daysPlayed = some (.num (k : ℚ))) ∧
      (∀ (tx : TxInput) (i : String) (t : JSNum),
        (addTransaction tx i t s).daysPlayed = some (.num (k : ℚ))) ∧
      (∀ (d : JSNum) (m : Option TxMeta) (i : String) (t : JSNum),
        (applyMoneyDelta d m i t s).daysPlayed = some (.num (k : ℚ))) ∧
      (∀ (a : AccessoryId) (cnt : JSNum),
        (addOwnedAccessory a cnt s).daysPlayed = some (.num (k : ℚ))) ∧
      (∀ (p : AnimalId) (cost : JSNum) (i : String) (t : JSNum),
        (purchasePremiumPet p cost i t s).daysPlayed = some (.num (k : ℚ))) ∧
      (∀ b : JSNum, incrementDaysPlayed b s = s) ∧
      (∀ (n : NeedId) (v : JSNum), (setNeed n v s).daysPlayed =
        if setNeedCrosses n v s then some (.num ((k : ℚ) + 1)) else some (.num (k : ℚ))) ∧
      (∀ (n : NeedId) (d : JSNum), (bumpNeed n d s).daysPlayed =
        if setNeedCrosses n (jsAdd ((needsOf s n).getD (.num 0)) d) s
        then some (.num ((k : ℚ) + 1)) else some (.num (k : ℚ))) := by
  obtain ⟨k, hk⟩ := (inv_reachable hreach).days
  have hq : (0 : ℚ) ≤ (k : ℚ) := by exact_mod_cast Nat.zero_le k
  refine ⟨k, hk, ?_, ?_, ?_, ?_, ?_, ?_, fun _ => rfl, ?_, ?_⟩
  · intro a
    exact persist_daysPlayed_nat hq hk
  · intro a e
    rw [setEquippedAccessory]
    split_ifs
    · exact hk
    · exact persist_daysPlayed_nat hq hk
  · intro tx i t
    exact persist_daysPlayed_nat hq hk
  · intro d m i t
    exact persist_daysPlayed_nat hq hk
  · intro a cnt
    rw [addOwnedAccessory]
    split_ifs
    · exact hk
    · exact persist_daysPlayed_nat hq hk
  · intro p cost i t
    simp only [purchasePremiumPet]
    split_ifs
    · exact hk
    · exact hk
    · exact persist_daysPlayed_nat hq hk
  · intro n v
    exact setNeed_daysPlayed hq hk n v
  · intro n d
    rw [bumpNeed]
    exact setNeed_daysPlayed hq hk n _

/-- Witness for C9 at the boot state: `incrementDaysPlayed` is a no-op. -/
theorem daysPlayed_monotone_exclusive_witness :
    incrementDaysPlayed (.num 5) initState = initState := by
  obtain ⟨k, _, _, _, _, _, _, _, hinc, _⟩ :=
    daysPlayed_monotone_exclusive initState Reachable.init
  exact hinc (.num 5)

/-! ## Claim C10: the normalizer passes transaction arrays through -/

theorem advanceDay_transactions (s1 : RawState) :
    (advanceDayBecauseNeedsComplete s1).transactions = some (s1.transactions.getD []) :=
  persist_transactions _

theorem setNeed_transactions (n : NeedId) (v : JSNum) (s : RawState) :
    (setNeed n v s).transactions = some (s.transactions.getD []) := by
  rw [setNeed_eq]
  by_cases h : setNeedCrosses n v s = true
  · rw [if_pos h, advanceDay_transactions, persist_transactions, Option.getD_some]
  · rw [if_neg h]
    exact persist_transactions _

/-- C10: `normalize` neither truncates nor validates the transactions list —
any present array is passed through unchanged (same elements, same order,
any length), so a persisted state with more than 250 entries is loaded at
full length (the boot path is `persist`, whose transactions are exactly the
normalized ones).  The 250-entry cap is applied only inside
`addTransaction`, `applyMoneyDelta` and `purchasePremiumPet`; every other
mutator leaves the list unchanged. -/
theorem normalize_transactions_passthrough (s : RawState) (l : List Transaction)
    (hl : s.transactions = some l) :
    (normalize s).transactions = some l ∧
    (persist s).transactions = some l ∧
    (∀ a : AnimalId, (setSelectedPet a s).transactions = some l) ∧
    (∀ (a : AccessoryId) (e : Bool), (setEquippedAccessory a e s).transactions = some l) ∧
    (∀ (n : NeedId) (v : JSNum), (setNeed n v s).transactions = some l) ∧
    (∀ (n : NeedId) (d : JSNum), (bumpNeed n d s).transactions = some l) ∧
    (∀ (a : AccessoryId) (cnt : JSNum), (addOwnedAccessory a cnt s).transactions = some l) ∧
    (∀ b : JSNum, (incrementDaysPlayed b s).transactions = some l) ∧
    (∀ (tx : TxInput) (i : String) (t : JSNum),
      (addTransaction tx i t s).transactions =
        some ((mkNextTransaction tx i t :: l).take 250)) ∧
    (∀ (d : JSNum) (m : Option TxMeta) (i : String) (t : JSNum),
      (applyMoneyDelta d m i t s).transactions =
        some ((mkMoneyTransaction d m i t :: l).take 250)) ∧
    (∀ (p : AnimalId) (cost : JSNum) (i : String) (t : JSNum),
      (purchasePremiumPet p cost i t s).transactions = some l ∨
      ∃ tx : Transaction,
        (purchasePremiumPet p cost i t s).transactions = some ((tx :: l).take 250)) := by
  have htx : s.transactions.getD [] = l := by
    rw [hl, Option.getD_some]
  refine ⟨?_, ?_, ?_, ?_, ?_, ?_, ?_, fun _ => hl, ?_, ?_, ?_⟩
  · exact congrArg some htx
  · rw [persist_transactions, htx]
  · intro a
    rw [setSelectedPet, persist_transactions]
    exact congrArg some htx
  · intro a e
    rw [setEquippedAccessory]
    split_ifs
    · exact hl
    · rw [persist_transactions]
      exact congrArg some htx
  · intro n v
    rw [setNeed_transactions]
    exact congrArg some htx
  · intro n d
    rw [bumpNeed, setNeed_transactions]
    exact congrArg some htx
  · intro a cnt
    rw [addOwnedAccessory]
    split_ifs
    · exact hl
    · rw [persist_transactions]
      exact congrArg some htx
  · intro tx i t
    rw [addTransaction, persist_transactions]
    show some ((mkNextTransaction tx i t :: s.transactions.getD []).take 250) = _
    rw [htx]
  · intro d m i t
    rw [applyMoneyDelta, persist_transactions]
    show some ((mkMoneyTransaction d m i t :: s.transactions.getD []).take 250) = _
    rw [htx]
  · intro p cost i t
    simp only [purchasePremiumPet]
    split_ifs
    · exact Or.inl hl
    · exact Or.inl hl
    · refine Or.inr ⟨{ id := i, createdAt := t, type := .expense, amount := jsMax (.num 0) (jsRound cost), category := "Pet Purchase", note := "Purchased " ++ p.str }, ?_⟩
      rw [persist_transactions]
      exact congrArg some (by rw [htx]; rfl)

/-- A 300-entry transactions array stored in the raw state used by the C10
witness. -/
def exampleLongRaw : RawState :=
  { defaultState with
    transactions := some (List.replicate 300
      { id := "t0", createdAt := .num 0, type := .income, amount := .num 1,
        category := "c", note := "n" }) }

/-- Witness for C10: a 300-entry array survives `normalize` (and thus the
boot path) at full length. -/
theorem normalize_transactions_passthrough_witness :
    (normalize exampleLongRaw).transactions = some (List.replicate 300
      { id := "t0", createdAt := .num 0, type := .income, amount := .num 1,
        category := "c", note := "n" }) ∧
    ((normalize exampleLongRaw).transactions.getD []).length = 300 := by
  have h := (normalize_transactions_passthrough exampleLongRaw _ rfl).1
  refine ⟨h, ?_⟩
  rw [h, Option.getD_some, List.length_replicate]

/-! ## Claim C5: transaction cap and newest-first ordering -/

/-- The record built from one `addTransaction` call. -/
def mkCallTx (c : TxCall) : Transaction := mkNextTransaction c.tx c.newId c.now

theorem take_append_take (n : ℕ) (A t : List Transaction) :
    (A ++ t.take n).take n = (A ++ t).take n := by
  rw [List.take_append_eq_append_take, List.take_append_eq_append_take, List.take_take,
    min_eq_left (Nat.sub_le n A.length)]

theorem addTransaction_transactions (c : TxCall) (s : RawState) (l : List Transaction)
    (hl : s.transactions = some l) :
    (addTransaction c.tx c.newId c.now s).transactions =
      some ((mkCallTx c :: l).take 250) := by
  rw [addTransaction, persist_transactions]
  exact congrArg some (by rw [hl]; rfl)

theorem runTx_transactions (calls : List TxCall) (s : RawState) (l : List Transaction)
    (hl : s.transactions = some l) (hlen : l.length ≤ 250) :
    (runTx calls s).transactions =
      some (((calls.map mkCallTx).reverse ++ l).take 250) := by
  induction calls generalizing s l with
  | nil =>
    simp only [runTx, List.foldl_nil, List.map_nil, List.reverse_nil, List.nil_append]
    rw [hl, List.take_of_length_le hlen]
  | cons c rest ih =>
    have hstep := addTransaction_transactions c s l hl
    have hlen2 : ((mkCallTx c :: l).take 250).length ≤ 250 := List.length_take_le _ _
    have hrec := ih (addTransaction c.tx c.newId c.now s) _ hstep hlen2
    calc (runTx (c :: rest) s).transactions
        = (runTx rest (addTransaction c.tx c.newId c.now s)).transactions := rfl
      _ = some (((rest.map mkCallTx).reverse ++ (mkCallTx c :: l).take 250).take 250) := hrec
      _ = some (((rest.map mkCallTx).reverse ++ (mkCallTx c :: l)).take 250) := by
            rw [take_append_take]
      _ = some ((((c :: rest).map mkCallTx).reverse ++ l).take 250) := by
            rw [List.map_cons, List.reverse_cons, List.append_assoc, List.singleton_append]

/-- C5: each `addTransaction` call prepends exactly one record and truncates
to 250; after any sequence of calls from the default state, the list is
exactly the most recent `min n 250` records, newest first. -/
theorem addTransaction_cap_newest_first (calls : List TxCall) :
    (∀ (c : TxCall) (s2 : RawState) (l2 : List Transaction), s2.transactions = some l2 →
      (addTransaction c.tx c.newId c.now s2).transactions =
        some ((mkCallTx c :: l2).take 250)) ∧
    (runTx calls initState).transactions =
      some (((calls.map mkCallTx).reverse).take 250) ∧
    (((calls.map mkCallTx).reverse).take 250).length = min calls.length 250 := by
  refine ⟨addTransaction_transactions, ?_, ?_⟩
  · have h := runTx_transactions calls initState [] rfl (by norm_num)
    rwa [List.append_nil] at h
  · rw [List.length_take, List.length_reverse, List.length_map, min_comm]

/-- One concrete `addTransaction` call used by the C5 witness. -/
def exampleTxCall : TxCall :=
  ⟨⟨.income, .num 5, "salary", "weekly"⟩, "id0", .num 0⟩

/-- Witness for C5: after 300 calls from the default state, exactly the 250
most recent records remain. -/
theorem addTransaction_cap_newest_first_witness :
    (runTx (List.replicate 300 exampleTxCall) initState).transactions =
      some ((((List.replicate 300 exampleTxCall).map mkCallTx).reverse).take 250) ∧
    ((((List.replicate 300 exampleTxCall).map mkCallTx).reverse).take 250).length = 250 := by
  obtain ⟨h1, h2, h3⟩ := addTransaction_cap_newest_first (List.replicate 300 exampleTxCall)
  refine ⟨h2, ?_⟩
  rw [h3, List.length_replicate]
  norm_num

/-! ## Claim C7 (corrected): `applyMoneyDelta` -/

theorem jsSub_num (a b : ℚ) : jsSub (.num a) (.num b) = .num (a - b) := by
  rw [jsSub]
  show jsAdd (.num a) (.num (-b)) = _
  rw [jsAdd_num, ← sub_eq_add_neg]

/-- Counterexample to C7 as stated: the claim says `applyMoneyDelta(delta)`
sets money to the previous money plus `delta`, floored at 0; but the source
rounds the sum.  With `money = 0` and `delta = 1/2` the claim predicts
`0 + 1/2 = 1/2` (the floor at 0 does not bite), while the code stores
`Math.max(0, Math.round(0 + 1/2)) = 1`. -/
theorem applyMoneyDelta_claim_counterexample :
    initState.money = some (.num 0) ∧
    (applyMoneyDelta (.num (mkRat 1 2)) none "t1" (.num 0) initState).money = some (.num 1) ∧
    (applyMoneyDelta (.num (mkRat 1 2)) none "t1" (.num 0) initState).money ≠
      some (.num (mkRat 1 2)) :=
  of_decide_eq_true (by with_unfolding_all rfl)

/-- C7 (amended): for every finite `delta`, `applyMoneyDelta(delta, meta?)`
sets money to `max 0 (round (money + delta))` — in particular money is never
negative afterwards, even when the deduction exceeds the balance — and
prepends exactly one synthesized transaction (the list truncated to 250)
whose type is income iff `delta >= 0`, whose amount is the absolute rounded
delta, and whose category/note are the defaults unless overridden by
`meta`. -/
theorem applyMoneyDelta_money_floor (d : ℚ) (meta : Option TxMeta) (i : String) (t : JSNum)
    (s : RawState) (m : ℚ) (hm : s.money = some (.num m)) (l : List Transaction)
    (hl : s.transactions = some l) :
    (applyMoneyDelta (.num d) meta i t s).money =
      some (.num (max 0 ((⌊(m + d) + 1/2⌋ : ℤ) : ℚ))) ∧
    (applyMoneyDelta (.num d) meta i t s).transactions =
      some ((mkMoneyTransaction (.num d) meta i t :: l).take 250) ∧
    (mkMoneyTransaction (.num d) meta i t).type =
      (if 0 ≤ d then TxType.income else TxType.expense) ∧
    (mkMoneyTransaction (.num d) meta i t).amount = .num ((|⌊d + 1/2⌋| : ℤ) : ℚ) ∧
    (mkMoneyTransaction (.num d) meta i t).category =
      (meta.bind TxMeta.category).getD (if 0 ≤ d then "Game Earned" else "Game Spent") ∧
    (mkMoneyTransaction (.num d) meta i t).note =
      (meta.bind TxMeta.note).getD (if 0 ≤ d then "Earned on Map" else "Spent on Map") := by
  have hcand : jsMax (.num 0) (jsRound (jsAdd (jsToNumber s.money) (.num d))) =
      .num (max 0 ((⌊(m + d) + 1/2⌋ : ℤ) : ℚ)) := by
    rw [hm, jsToNumber_some, jsAdd_num, jsRound_num, jsMax_num]
  refine ⟨?_, ?_, ?_, ?_, ?_, ?_⟩
  · rw [applyMoneyDelta, persist_money]
    show some (jsMax (.num 0) (jsOrZero (jsToNumber (some (jsMax (.num 0)
      (jsRound (jsAdd (jsToNumber s.money) (.num d)))))))) = _
    rw [hcand, jsToNumber_some, jsMax_zero_orZero_num (le_max_left 0 _)]
  · rw [applyMoneyDelta, persist_transactions]
    exact congrArg some (by rw [hl]; rfl)
  · by_cases h0 : 0 ≤ d <;> simp [mkMoneyTransaction, jsGe_num, h0]
  · simp [mkMoneyTransaction, jsAbs, Int.cast_abs]
  · by_cases h0 : 0 ≤ d <;> simp [mkMoneyTransaction, jsGe_num, h0]
  · by_cases h0 : 0 ≤ d <;> simp [mkMoneyTransaction, jsGe_num, h0]

/-- Witness for the amended C7 at the spec's example: `money = 50`,
`applyMoneyDelta(-1000000)` yields `money = 0` and an expense transaction. -/
theorem applyMoneyDelta_money_floor_witness :
    (applyMoneyDelta (.num (-1000000)) none "t1" (.num 0) exampleMoney50).money =
      some (.num 0) ∧
    (mkMoneyTransaction (.num (-1000000)) none "t1" (.num 0)).type = TxType.expense := by
  obtain ⟨hmoney, _, htype, _, _, _⟩ :=
    applyMoneyDelta_money_floor (-1000000) none "t1" (.num 0) exampleMoney50 50
      (of_decide_eq_true (by with_unfolding_all rfl)) []
      (of_decide_eq_true (by with_unfolding_all rfl))
  refine ⟨?_, ?_⟩
  · rw [hmoney]
    have hval : (max 0 ((⌊((50 : ℚ) + -1000000) + 1/2⌋ : ℤ) : ℚ)) = 0 :=
      of_decide_eq_true (by with_unfolding_all rfl)
    rw [hval]
  · rw [htype]
    norm_num

/-! ## Claim C6 (corrected): `purchasePremiumPet` -/

theorem mergePets_get_set (x : RawPets) (p : AnimalId) :
    (mergePets (some (x.set p (some true)))).get p = some true := by
  cases p <;> rfl

/-- Counterexample to C6 as stated: the claim requires a complete no-op
whenever `money < cost`, but the source compares `money` against the
*rounded* price.  With `money = 50` and `cost = 50.4` we have
`money < cost`, yet the purchase goes through (price `= round(50.4) = 50`)
and the state changes. -/
theorem purchasePremiumPet_claim_counterexample :
    (50 : ℚ) < mkRat 252 5 ∧
    petOwnedOf exampleMoney50 .dragon = some false ∧
    petOwnedOf (purchasePremiumPet .dragon (.num (mkRat 252 5)) "t1" (.num 0)
      exampleMoney50) .dragon = some true ∧
    purchasePremiumPet .dragon (.num (mkRat 252 5)) "t1" (.num 0) exampleMoney50 ≠
      exampleMoney50 :=
  of_decide_eq_true (by with_unfolding_all rfl)

/-- C6 (amended): with `price = max 0 (round cost)`: if the pet is already
owned the call returns the state unchanged; otherwise, if `money < price`
the call returns the state unchanged; otherwise it deducts `price` from
money, marks the pet owned, and prepends exactly one expense transaction of
amount `price` — and a second identical call is then a complete no-op. -/
theorem purchasePremiumPet_contract (p : AnimalId) (cost : JSNum) (i : String) (t : JSNum)
    (s : RawState) (m : ℚ) (hm : s.money = some (.num m)) (l : List Transaction)
    (hl : s.transactions = some l) :
    ((petOwnedOf s p).getD false = true → purchasePremiumPet p cost i t s = s) ∧
    ∀ pr : ℚ, jsMax (.num 0) (jsRound cost) = .num pr →
      (petOwnedOf s p).getD false = false →
      (m < pr → purchasePremiumPet p cost i t s = s) ∧
      (pr ≤ m →
        (purchasePremiumPet p cost i t s).money = some (.num (m - pr)) ∧
        petOwnedOf (purchasePremiumPet p cost i t s) p = some true ∧
        (purchasePremiumPet p cost i t s).transactions =
          some (({ id := i, createdAt := t, type := .expense, amount := .num pr, category := "Pet Purchase", note := "Purchased " ++ p.str } :: l).take 250) ∧
        purchasePremiumPet p cost i t (purchasePremiumPet p cost i t s) =
          purchasePremiumPet p cost i t s) := by
  constructor
  · intro h
    rw [purchasePremiumPet, if_pos h]
  · intro pr hpr hnot
    constructor
    · intro hlt
      rw [purchasePremiumPet, if_neg (by rw [hnot]; simp)]
      show (if jsLt (jsToNumber s.money) (jsMax (.num 0) (jsRound cost)) = true then s
        else _) = s
      rw [hm, jsToNumber_some, hpr, jsLt_num, if_pos (decide_eq_true hlt)]
    · intro hle
      have hnotlt : jsLt (jsToNumber s.money) (jsMax (.num 0) (jsRound cost)) = false := by
        rw [hm, jsToNumber_some, hpr, jsLt_num]
        exact decide_eq_false (not_lt.mpr hle)
      have hrun : purchasePremiumPet p cost i t s =
          persist
            { s with
              money := some (jsMax (.num 0) (jsSub (jsToNumber s.money)
                (jsMax (.num 0) (jsRound cost))))
              ownedPets := some ((s.ownedPets.getD RawPets.empty).set p (some true))
              transactions := some ((({ id := i, createdAt := t, type := .expense, amount := jsMax (.num 0) (jsRound cost), category := "Pet Purchase", note := "Purchased " ++ p.str } : Transaction) :: s.transactions.getD []).take 250) } := by
        rw [purchasePremiumPet, if_neg (by rw [hnot]; simp)]
        show (if jsLt (jsToNumber s.money) (jsMax (.num 0) (jsRound cost)) = true
          then s else _) = _
        rw [if_neg (by rw [hnotlt]; simp)]
      have hsub : jsMax (.num 0) (jsSub (jsToNumber s.money) (jsMax (.num 0) (jsRound cost)))
          = .num (m - pr) := by
        rw [hm, jsToNumber_some, hpr, jsSub_num, jsMax_num, max_eq_right (sub_nonneg.mpr hle)]
      have h2 : petOwnedOf (purchasePremiumPet p cost i t s) p = some true := by
        rw [hrun, petOwnedOf, persist_ownedPets, Option.getD_some]
        exact mergePets_get_set _ p
      refine ⟨?_, h2, ?_, ?_⟩
      · rw [hrun, persist_money]
        show some (jsMax (.num 0) (jsOrZero (jsToNumber (some (jsMax (.num 0)
          (jsSub (jsToNumber s.money) (jsMax (.num 0) (jsRound cost)))))))) = _
        rw [hsub, jsToNumber_some, jsMax_zero_orZero_num (sub_nonneg.mpr hle)]
      · rw [hrun, persist_transactions]
        exact congrArg some (by rw [hl, hpr]; rfl)
      · have hno : ∀ s2 : RawState, petOwnedOf s2 p = some true →
            purchasePremiumPet p cost i t s2 = s2 := by
          intro s2 hown
          rw [purchasePremiumPet, if_pos (by rw [hown]; rfl)]
        exact hno _ h2

set_option maxRecDepth 8000 in
/-- Witness for the amended C6 at the spec's example: buying the dragon for
500 with `money = 500` empties the wallet, unlocks the pet, logs one expense
of 500, and a second identical call is a no-op. -/
theorem purchasePremiumPet_contract_witness :
    (purchasePremiumPet .dragon (.num 500) "t1" (.num 0) exampleMoney500).money =
      some (.num (500 - 500)) ∧
    petOwnedOf (purchasePremiumPet .dragon (.num 500) "t1" (.num 0) exampleMoney500) .dragon
      = some true ∧
    purchasePremiumPet .dragon (.num 500) "t1" (.num 0)
        (purchasePremiumPet .dragon (.num 500) "t1" (.num 0) exampleMoney500) =
      purchasePremiumPet .dragon (.num 500) "t1" (.num 0) exampleMoney500 := by
  have h := (purchasePremiumPet_contract .dragon (.num 500) "t1" (.num 0) exampleMoney500 500
    (of_decide_eq_true (by with_unfolding_all rfl)) []
    (of_decide_eq_true (by with_unfolding_all rfl))).2 500
    (of_decide_eq_true (by with_unfolding_all rfl))
    (of_decide_eq_true (by with_unfolding_all rfl))
  obtain ⟨hmoney, hown, _, hidem⟩ := h.2 (le_refl 500)
  exact ⟨hmoney, hown, hidem⟩

/-! ## Claim C4: badges are a derived, monotone view -/

/-- Order on well-shaped counts: `x` is below `y` (anything is below
`+Infinity`). -/
def NLe (x y : JSNum) : Prop :=
  (∃ p q : ℚ, x = .num p ∧ y = .num q ∧ p ≤ q) ∨ y = .inf

theorem NLe_refl {x : JSNum} (hx : NNum x) : NLe x x := by
  rcases hx with ⟨q, rfl, _⟩ | rfl
  · exact Or.inl ⟨q, q, rfl, rfl, le_refl q⟩
  · exact Or.inr rfl

theorem jsGe_of_NLe {x y : JSNum} (t : ℚ) (hxy : NLe x y) (hx : jsGe x (.num t) = true) :
    jsGe y (.num t) = true := by
  rcases hxy with ⟨p, q, rfl, rfl, hpq⟩ | rfl
  · rw [jsGe_num] at hx ⊢
    exact decide_eq_true (le_trans (of_decide_eq_true hx) hpq)
  · rfl

theorem jsAdd_NLe {a b a2 b2 : JSNum} (ha : NLe a a2) (hb : NLe b b2) :
    NLe (jsAdd a b) (jsAdd a2 b2) := by
  rcases ha with ⟨p, p2, rfl, rfl, hp⟩ | rfl
  · rcases hb with ⟨q, q2, rfl, rfl, hq⟩ | rfl
    · exact Or.inl ⟨p + q, p2 + q2, rfl, rfl, by linarith⟩
    · exact Or.inr rfl
  · rcases hb with ⟨q, q2, rfl, rfl, hq⟩ | rfl
    · exact Or.inr rfl
    · exact Or.inr rfl

theorem jsAdd_NN {x y : JSNum} (hx : NNum x) (hy : NNum y) : NNum (jsAdd x y) := by
  rcases hx with ⟨q, rfl, hq⟩ | rfl
  · rcases hy with ⟨p, rfl, hp⟩ | rfl
    · exact Or.inl ⟨q + p, rfl, by linarith⟩
    · exact Or.inr rfl
  · rcases hy with ⟨p, rfl, hp⟩ | rfl
    · exact Or.inr rfl
    · exact Or.inr rfl

/-- An owned count never shrinks under `addOwnedAccessory`'s update. -/
theorem NLe_newOwned {old addv : JSNum} (hold : NNum old) (hadd : NNum addv)
    (hpos : jsLe addv (.num 0) = false) :
    NLe old (jsMax (.num 0) (jsAdd old addv)) := by
  rcases hold with ⟨q, rfl, hq⟩ | rfl
  · rcases hadd with ⟨b, rfl, hb⟩ | rfl
    · have hbpos : 0 < b := by
        by_contra hc
        push_neg at hc
        simp [hc] at hpos
      rw [jsAdd_num, jsMax_num, max_eq_right (by linarith)]
      exact Or.inl ⟨q, q + b, rfl, rfl, by linarith⟩
    · exact Or.inr (by simp [jsAdd, jsMax, jsLt])
  · rcases hadd with ⟨b, rfl, hb⟩ | rfl
    · exact Or.inr (by simp [jsAdd, jsMax, jsLt])
    · exact Or.inr (by simp [jsAdd, jsMax, jsLt])

/-- One `addOwnedAccessory` call never decreases the owned-accessory
total. -/
theorem totalOwned_step {s : RawState} (hs : Inv s) (a : AccessoryId) (cnt : JSNum) :
    NLe (totalOwnedOf s) (totalOwnedOf (addOwnedAccessory a cnt s)) := by
  obtain ⟨c, l, h, ec, el, eh, hoa, hea, hc, hl2, hh, _, _, _⟩ := hs.acc
  have htot : totalOwnedOf s = jsAdd (jsAdd c l) h := by
    rw [totalOwnedOf, hoa, Option.getD_some]
    rfl
  have hNNtot : NNum (totalOwnedOf s) := by
    rw [htot]
    exact jsAdd_NN (jsAdd_NN hc hl2) hh
  rw [addOwnedAccessory]
  split_ifs with hguard
  · exact NLe_refl hNNtot
  · have hgpos : jsLe (jsMax (.num 0) (jsFloor (jsOrZero cnt))) (.num 0) = false := by
      cases hle : jsLe (jsMax (.num 0) (jsFloor (jsOrZero cnt))) (.num 0)
      · rfl
      · exact absurd (by simp [hle]) hguard
    have hadd := addExpr_NN cnt
    have hgetD : s.ownedAccessories.getD RawOwnedAcc.empty = ⟨some c, some l, some h⟩ := by
      rw [hoa, Option.getD_some]
    have hOwnedVal :
        ownedOf s a = ((⟨some c, some l, some h⟩ : RawOwnedAcc).get a).getD (.num 0) := by
      rw [ownedOf, hgetD]
    have htot2 : ∀ w : JSNum,
        totalOwnedOf (persist
          { s with
            ownedAccessories :=
              some ((s.ownedAccessories.getD RawOwnedAcc.empty).set a (some w)) })
          = totalAccessoriesOwned (mergeOwnedAcc
              (some ((⟨some c, some l, some h⟩ : RawOwnedAcc).set a (some w)))) := by
      intro w
      rw [totalOwnedOf, persist_ownedAccessories, Option.getD_some, hgetD]
    cases a with
    | collar =>
      rw [htot, htot2, (hOwnedVal : ownedOf s AccessoryId.collar = c)]
      exact jsAdd_NLe (jsAdd_NLe (NLe_newOwned hc hadd hgpos) (NLe_refl hl2)) (NLe_refl hh)
    | leash =>
      rw [htot, htot2, (hOwnedVal : ownedOf s AccessoryId.leash = l)]
      exact jsAdd_NLe (jsAdd_NLe (NLe_refl hc) (NLe_newOwned hl2 hadd hgpos)) (NLe_refl hh)
    | headband =>
      rw [htot, htot2, (hOwnedVal : ownedOf s AccessoryId.headband = h)]
      exact jsAdd_NLe (jsAdd_NLe (NLe_refl hc) (NLe_refl hl2)) (NLe_newOwned hh hadd hgpos)

theorem runAcc_reachable {s : RawState} (hr : Reachable s)
    (calls : List (AccessoryId × JSNum)) : Reachable (runAcc calls s) := by
  induction calls generalizing s with
  | nil => exact hr
  | cons c rest ih => exact ih (hr.step (Step.addAcc s c.1 c.2))

theorem jsGe_total_runAcc {s : RawState} (hreach : Reachable s) (t : ℚ)
    (calls : List (AccessoryId × JSNum))
    (hge : jsGe (totalOwnedOf s) (.num t) = true) :
    jsGe (totalOwnedOf (runAcc calls s)) (.num t) = true := by
  induction calls generalizing s with
  | nil => exact hge
  | cons c rest ih =>
    exact ih (hreach.step (Step.addAcc s c.1 c.2))
      (jsGe_of_NLe t (totalOwned_step (inv_reachable hreach) c.1 c.2) hge)

theorem runAcc_append (xs ys : List (AccessoryId × JSNum)) (s : RawState) :
    runAcc (xs ++ ys) s = runAcc ys (runAcc xs s) :=
  List.foldl_append _ _ _ _

/-- C4: badges are a pure derived view.  After every commit the badge record
equals `computeBadges` of the committed state (overriding the candidate's
badges); in every store-held state each badge flag equals its threshold
condition on the owned-accessory total and `daysPlayed`; and along any
sequence of `addOwnedAccessory` calls each accessory badge equals its
threshold at every prefix and, once true, remains true for all longer
prefixes. -/
theorem badges_derived_and_monotone (s : RawState) (hreach : Reachable s) :
    (∀ r : RawState, (persist r).badges = some (computeBadges (persist r))) ∧
    s.badges = some (computeBadges s) ∧
    computeBadges s =
      ⟨some (jsGe (totalOwnedOf s) (.num 1)), some (jsGe (totalOwnedOf s) (.num 2)),
       some (jsGe (totalOwnedOf s) (.num 4)), some (jsGe (jsToNumber s.daysPlayed) (.num 5)),
       some (jsGe (jsToNumber s.daysPlayed) (.num 10)),
       some (jsGe (jsToNumber s.daysPlayed) (.num 15)),
       some (jsGe (jsToNumber s.daysPlayed) (.num 25)),
       some (jsGe (jsToNumber s.daysPlayed) (.num 50)),
       some (jsGe (jsToNumber s.daysPlayed) (.num 100))⟩ ∧
    (∀ calls : List (AccessoryId × JSNum),
      (runAcc calls s).badges = some (computeBadges (runAcc calls s))) ∧
    (∀ calls more : List (AccessoryId × JSNum),
      ((computeBadges (runAcc calls s)).accessory_1 = some true →
        (computeBadges (runAcc (calls ++ more) s)).accessory_1 = some true) ∧
      ((computeBadges (runAcc calls s)).accessory_2 = some true →
        (computeBadges (runAcc (calls ++ more) s)).accessory_2 = some true) ∧
      ((computeBadges (runAcc calls s)).accessory_4 = some true →
        (computeBadges (runAcc (calls ++ more) s)).accessory_4 = some true)) := by
  refine ⟨persist_badges, (inv_reachable hreach).badgesDerived, rfl, ?_, ?_⟩
  · intro calls
    exact (inv_reachable (runAcc_reachable hreach calls)).badgesDerived
  · intro calls more
    have hre := runAcc_reachable hreach calls
    refine ⟨?_, ?_, ?_⟩ <;> intro hflag
    · have h1 : jsGe (totalOwnedOf (runAcc calls s)) (.num 1) = true :=
        Option.some_injective _ hflag
      rw [runAcc_append]
      exact congrArg some (jsGe_total_runAcc hre 1 more h1)
    · have h1 : jsGe (totalOwnedOf (runAcc calls s)) (.num 2) = true :=
        Option.some_injective _ hflag
      rw [runAcc_append]
      exact congrArg some (jsGe_total_runAcc hre 2 more h1)
    · have h1 : jsGe (totalOwnedOf (runAcc calls s)) (.num 4) = true :=
        Option.some_injective _ hflag
      rw [runAcc_append]
      exact congrArg some (jsGe_total_runAcc hre 4 more h1)

/-- Witness for C4 at the boot state: after buying one collar the
`accessory_1` badge is derived `true`, and remains true after more calls. -/
theorem badges_derived_and_monotone_witness :
    initState.badges = some (computeBadges initState) ∧
    (computeBadges (runAcc [(.collar, .num 1)] initState)).accessory_1 = some true ∧
    (computeBadges (runAcc ([(.collar, .num 1)] ++ [(.leash, .num 1)])
      initState)).accessory_1 = some true := by
  obtain ⟨_, hb, _, _, hmono⟩ := badges_derived_and_monotone initState Reachable.init
  have h1 : (computeBadges (runAcc [(.collar, .num 1)] initState)).accessory_1 = some true :=
    of_decide_eq_true (by with_unfolding_all rfl)
  exact ⟨hb, h1, (hmono [(.collar, .num 1)] [(.leash, .num 1)]).1 h1⟩

end GameStore
